import Mathlib

/-!
Verification development for the CLAUDE-ON-THE-GO multi-agent build
orchestrator.  The Python sources (`cost_tracker.py`, `test_gate.py`,
`agent_runner.py`, `orchestrator.py`, `db.py`, `regression.py`,
`schemas.py`) are shallowly embedded: pure functions become Lean
functions, mutation becomes explicit state passing, Python `float`
becomes `ℚ`, Python `int` becomes `Int`, raised exceptions become
`Except String` or an explicit `Option String` error slot.  External
effects (child processes, the CLI binary, git, the clock) are supplied
as oracle inputs.
-/

/-! ## Basic string machinery

Python regular-expression scans used by the sources are embedded as
explicit character-list scanners.  Python `\s` is modelled by ASCII
whitespace and `\w` by `[A-Za-z0-9_]`, which is exact for the ASCII
texts these scanners are applied to.
-/

/-- ASCII whitespace, the characters matched by Python `\s` on ASCII input. -/
def isPySpace (c : Char) : Bool :=
  c = ' ' || c = '\t' || c = '\n' || c = '\r' || c = '\x0b' || c = '\x0c'

/-- Characters matched by Python `\w` on ASCII input. -/
def isWordChar (c : Char) : Bool :=
  c.isAlpha || c.isDigit || c = '_'

/-- Does `hay` start with `needle`? -/
def startsWithSeq : List Char → List Char → Bool
  | _, [] => true
  | [], _ :: _ => false
  | a :: xs, b :: ys => a = b && startsWithSeq xs ys

/-- Does `needle` occur as a contiguous subsequence of `hay`? -/
def containsSeq (hay needle : List Char) : Bool :=
  startsWithSeq hay needle ||
    match hay with
    | [] => false
    | _ :: t => containsSeq t needle

/-- Substring test on strings, Python `needle in hay`. -/
def strContains (hay needle : String) : Bool :=
  containsSeq hay.data needle.data

/-- Longest prefix of the character list satisfying `p`. -/
def takeRun (p : Char → Bool) : List Char → List Char
  | [] => []
  | c :: rest => if p c then c :: takeRun p rest else []

/-- Remainder after dropping the longest prefix satisfying `p`. -/
def dropRun (p : Char → Bool) : List Char → List Char
  | [] => []
  | c :: rest => if p c then dropRun p rest else c :: rest

/-- Split a character list at a separator character, keeping empty segments
(Python `str.split(sep)` with a one-character separator). -/
def splitChar (sep : Char) : List Char → List (List Char)
  | [] => [[]]
  | c :: rest =>
    if c = sep then [] :: splitChar sep rest
    else
      match splitChar sep rest with
      | [] => [[c]]
      | l :: ls => (c :: l) :: ls

/-- Python `s.split(sep)` for a one-character separator. -/
def splitStrChar (sep : Char) (s : String) : List String :=
  (splitChar sep s.data).map String.mk

/-- Python `str.splitlines()` for texts whose line breaks are `\n`: split at
newlines and drop the trailing empty segment left by a final newline. -/
def pySplitLines (s : String) : List String :=
  let segs := splitChar '\x0a' s.data
  (if segs.getLast? = some [] then segs.dropLast else segs).map String.mk

/-- Python `sep.join(l)`. -/
def strJoin (sep : String) : List String → String
  | [] => ""
  | [x] => x
  | x :: y :: rest => x ++ sep ++ strJoin sep (y :: rest)

/-- Python `str.lower()` on ASCII text. -/
def strLower (s : String) : String :=
  String.mk (s.data.map Char.toLower)

/-! ## schemas.py — shared data model -/

/-- Embedding of `AgentStatus` from `schemas.py`. -/
inductive AgentStatus
  | pending
  | running
  | success
  | failed
  | retrying
deriving DecidableEq, Repr

/-- Embedding of `TestLevel` from `schemas.py`. -/
inductive TestLevel
  | smoke
  | fast
  | normal
  | full
deriving DecidableEq, Repr

/-- Embedding of `TestBaseline` from `schemas.py`. -/
structure TestBaseline where
  total_tests : Int := 0
  passing_tests : Int := 0
  snapshot_hash : String := ""
deriving DecidableEq, Repr

/-- Embedding of `TestDelta` from `schemas.py`. -/
structure TestDelta where
  total_before : Int := 0
  total_after : Int := 0
  passing_before : Int := 0
  passing_after : Int := 0
  newly_failing : Int := 0
  newly_added : Int := 0
deriving DecidableEq, Repr

/-- Embedding of `TestResult` from `schemas.py`; field defaults as in the source. -/
structure TestResult where
  level : TestLevel
  passed : Bool
  total_tests : Int := 0
  passed_tests : Int := 0
  failed_tests : List String := []
  compiler_errors : List String := []
  output : String := ""
  regressions : Int := 0
  duration_seconds : ℚ := 0
deriving DecidableEq, Repr

/-- Embedding of `AgentConfig` from `schemas.py`. -/
structure AgentConfig where
  role : String
  prompt_file : String
  model : String := "sonnet"
  timeout : Int := 600
  budget_usd : ℚ := 3/2
deriving DecidableEq, Repr

/-- Embedding of `AgentResult` from `schemas.py`; field defaults as in the source. -/
structure AgentResult where
  status : AgentStatus := .success
  files_modified : List String := []
  tests_added : Int := 0
  errors : List String := []
  cost_usd : ℚ := 0
  duration_seconds : ℚ := 0
  input_tokens : Int := 0
  output_tokens : Int := 0
  raw_output : String := ""
deriving DecidableEq, Repr

/-- Embedding of `AgentTask` from `schemas.py`. -/
structure AgentTask where
  role : String
  description : String
  files_to_modify : List String := []
  files_to_create : List String := []
deriving DecidableEq, Repr

/-- Embedding of `CostSnapshot` from `schemas.py`. -/
structure CostSnapshot where
  agent_role : String
  model : String := "sonnet"
  input_tokens : Int := 0
  output_tokens : Int := 0
  cost_usd : ℚ := 0
  duration_seconds : ℚ := 0
deriving DecidableEq, Repr

/-- Embedding of `AgentDashboardEntry` from `schemas.py`. -/
structure AgentDashboardEntry where
  role : String
  status : String := "waiting"
  cost_usd : ℚ := 0
  duration_seconds : ℚ := 0
  tokens : Int := 0
deriving DecidableEq, Repr

/-! ## cost_tracker.py -/

/-- Embedding of `MODEL_RATES` lookup with the `.get(model, MODEL_RATES["sonnet"])`
fallback from `calculate_cost` in `cost_tracker.py`. -/
def MODEL_RATES (model : String) : ℚ × ℚ :=
  if model = "opus" then (15, 75)
  else if model = "sonnet" then (3, 15)
  else if model = "haiku" then (1/4, 5/4)
  else (3, 15)

/-- Embedding of `BUDGET_THRESHOLDS` from `cost_tracker.py`. -/
def BUDGET_THRESHOLDS : List Nat := [50, 80, 100]

/-- Embedding of `calculate_cost` from `cost_tracker.py`. -/
def calculate_cost (model : String) (input_tokens output_tokens : Int) : ℚ :=
  ((input_tokens : ℚ) * (MODEL_RATES model).1 + (output_tokens : ℚ) * (MODEL_RATES model).2)
    / 1000000

/-- State of a `CostTracker` instance from `cost_tracker.py`: `snapshots` and
the `_thresholds_fired` set (modelled as a list used only through membership). -/
structure CostTracker where
  task_id : String
  budget_usd : ℚ
  snapshots : List CostSnapshot := []
  thresholds_fired : List Nat := []
deriving DecidableEq, Repr

/-- The `CostTracker` constructor: fresh snapshot list and fired set. -/
def CostTracker.init (task_id : String) (budget_usd : ℚ) : CostTracker :=
  { task_id, budget_usd }

/-- Embedding of the `total_cost` property. -/
def CostTracker.total_cost (c : CostTracker) : ℚ :=
  (c.snapshots.map (fun s => s.cost_usd)).sum

/-- Embedding of the `total_tokens` property. -/
def CostTracker.total_tokens (c : CostTracker) : Int :=
  (c.snapshots.map (fun s => s.input_tokens + s.output_tokens)).sum

/-- Embedding of the `budget_percent` property. -/
def CostTracker.budget_percent (c : CostTracker) : ℚ :=
  if c.budget_usd ≤ 0 then 0 else c.total_cost / c.budget_usd * 100

/-- Embedding of the `budget_exceeded` property. -/
def CostTracker.budget_exceeded (c : CostTracker) : Bool :=
  decide (c.budget_usd ≤ c.total_cost)

/-- The `on_threshold` callback: `Callback(task_id, percent, current_cost, budget)`.
A Python callback may raise; this is modelled by returning `Except String Unit`. -/
def ThresholdCallback : Type :=
  String → Nat → ℚ → ℚ → Except String Unit

/-- The loop body of `CostTracker._check_thresholds`: walks `BUDGET_THRESHOLDS`,
threading the `_thresholds_fired` set; for each newly crossed threshold it adds
the threshold to the set and then invokes the callback (an exception from the
callback propagates, as in the source, which has no try/except here).  Returns
the updated fired set together with the list of thresholds for which the
callback was invoked, in invocation order. -/
def checkLoop (cb : ThresholdCallback) (task_id : String) (total budget pct : ℚ) :
    List Nat → List Nat → Except String (List Nat × List Nat)
  | fired, [] => .ok (fired, [])
  | fired, t :: rest =>
    if (t : ℚ) ≤ pct ∧ t ∉ fired then
      match cb task_id t total budget with
      | .error e => .error e
      | .ok _ =>
        match checkLoop cb task_id total budget pct (t :: fired) rest with
        | .error e => .error e
        | .ok (f, ev) => .ok (f, t :: ev)
    else
      checkLoop cb task_id total budget pct fired rest

/-- Embedding of `CostTracker._check_thresholds`. -/
def CostTracker.check_thresholds (cb : ThresholdCallback) (c : CostTracker) :
    Except String (CostTracker × List Nat) :=
  match checkLoop cb c.task_id c.total_cost c.budget_usd c.budget_percent
      c.thresholds_fired BUDGET_THRESHOLDS with
  | .error e => .error e
  | .ok (fired, ev) => .ok ({ c with thresholds_fired := fired }, ev)

/-- Embedding of `CostTracker.record`: computes the cost, appends the snapshot,
then checks thresholds.  Returns the updated tracker, the thresholds for which
the callback fired, and the snapshot. -/
def CostTracker.record (cb : ThresholdCallback) (c : CostTracker)
    (agent_role model : String) (input_tokens output_tokens : Int)
    (duration_seconds : ℚ) : Except String (CostTracker × List Nat × CostSnapshot) :=
  let cost := calculate_cost model input_tokens output_tokens
  let snapshot : CostSnapshot :=
    { agent_role, model, input_tokens, output_tokens,
      cost_usd := cost, duration_seconds }
  let c1 : CostTracker := { c with snapshots := c.snapshots ++ [snapshot] }
  match c1.check_thresholds cb with
  | .error e => .error e
  | .ok (c2, ev) => .ok (c2, ev, snapshot)

/-- A callback that never raises (the normal situation). -/
def okCallback : ThresholdCallback := fun _ _ _ _ => .ok ()

/-- One call to `record` as used with a non-raising callback; the impossible
error branch returns the input unchanged. -/
def CostTracker.recordOk (c : CostTracker) (agent_role model : String)
    (input_tokens output_tokens : Int) (duration_seconds : ℚ) :
    CostTracker × List Nat :=
  match c.record okCallback agent_role model input_tokens output_tokens duration_seconds with
  | .ok (c2, ev, _) => (c2, ev)
  | .error _ => (c, [])

/-- The arguments of one `record` call. -/
structure RecordCall where
  agent_role : String
  model : String
  input_tokens : Int
  output_tokens : Int
  duration_seconds : ℚ
deriving DecidableEq, Repr

/-- A sequence of `record` calls against one tracker; returns the final tracker
and, per call, the list of thresholds for which the callback was invoked. -/
def runRecords (c : CostTracker) : List RecordCall → CostTracker × List (List Nat)
  | [] => (c, [])
  | r :: rs =>
    let p := c.recordOk r.agent_role r.model r.input_tokens r.output_tokens
      r.duration_seconds
    let q := runRecords p.1 rs
    (q.1, p.2 :: q.2)

/-- Tracker state after a sequence of `record` calls. -/
def trackerAfter (c : CostTracker) (calls : List RecordCall) : CostTracker :=
  (runRecords c calls).1

/-- The per-call callback-invocation lists of a sequence of `record` calls. -/
def eventsOf (c : CostTracker) (calls : List RecordCall) : List (List Nat) :=
  (runRecords c calls).2

/-- The value of `budget_percent` right after call `i` (0-based) of a sequence. -/
def pctAt (c : CostTracker) (calls : List RecordCall) (i : Nat) : ℚ :=
  (trackerAfter c (calls.take (i + 1))).budget_percent

/-! ## test_gate.py — delta comparison -/

/-- Embedding of `compare_to_baseline` from `test_gate.py`. -/
def compare_to_baseline (baseline : TestBaseline) (result : TestResult) : TestDelta :=
  let newly_failing := max 0 (baseline.passing_tests - result.passed_tests)
  let newly_added := max 0 (result.total_tests - baseline.total_tests)
  { total_before := baseline.total_tests
    total_after := result.total_tests
    passing_before := baseline.passing_tests
    passing_after := result.passed_tests
    newly_failing
    newly_added }

/-! ## test_gate.py — output parsing

Each `re.finditer` scan is embedded as a left-to-right scanner.  For every
pattern used in `test_gate.py` the repeated classes (`\w+`, `\s+`, `\d+`,
`\S+`) are disjoint from the character that must follow them, so the Python
backtracking engine deterministically takes the maximal run; the scanners
below do the same.
-/

/-- Match a literal prefix, returning the remainder after it. -/
def matchAfterLit (lit : String) (s : List Char) : Option (List Char) :=
  if startsWithSeq s lit.data then some (s.drop lit.data.length) else none

/-- Match `pre` + a nonempty maximal run of `p`-characters + `post`,
returning the captured run and the remainder after the whole match. -/
def matchLitRunLit (pre : String) (p : Char → Bool) (post : String)
    (s : List Char) : Option (String × List Char) :=
  match matchAfterLit pre s with
  | none => none
  | some s1 =>
    let run := takeRun p s1
    if run.isEmpty then none
    else
      match matchAfterLit post (dropRun p s1) with
      | none => none
      | some s2 => some (String.mk run, s2)

/-- Left-to-right non-overlapping scan with explicit fuel (structural
recursion; the fuel is an upper bound on the remaining length, so with
`fuel = s.length` this is Python `re.finditer`): at each position try the
matcher; on a match emit the capture and resume after the match, otherwise
advance one character. -/
def scanWithAux (m : List Char → Option (String × List Char)) :
    Nat → List Char → List String
  | 0, _ => []
  | _, [] => []
  | fuel + 1, c :: rest =>
    match m (c :: rest) with
    | some (cap, after) =>
      if after.length < rest.length + 1 then cap :: scanWithAux m fuel after
      else scanWithAux m fuel rest
    | none => scanWithAux m fuel rest

/-- Left-to-right non-overlapping scan, Python `re.finditer`. -/
def scanWith (m : List Char → Option (String × List Char)) (s : List Char) :
    List String :=
  scanWithAux m s.length s

/-- Value of a nonempty digit string, Python `int(...)` on a `\d+` capture. -/
def digitsToNat (s : String) : Nat :=
  s.data.foldl (fun acc c => acc * 10 + (c.toNat - '0'.toNat)) 0

/-- Matcher for `test result: \w+\.\s+(\d+) passed` from `_count_passing`. -/
def matchTestResultPassed (s : List Char) : Option (String × List Char) :=
  match matchAfterLit "test result: " s with
  | none => none
  | some s1 =>
    if (takeRun isWordChar s1).isEmpty then none
    else
      match matchAfterLit "." (dropRun isWordChar s1) with
      | none => none
      | some s2 =>
        if (takeRun isPySpace s2).isEmpty then none
        else
          let s3 := dropRun isPySpace s2
          let d := takeRun Char.isDigit s3
          if d.isEmpty then none
          else
            match matchAfterLit " passed" (dropRun Char.isDigit s3) with
            | none => none
            | some s4 => some (String.mk d, s4)

/-- Embedding of `_count_passing` from `test_gate.py`. -/
def _count_passing (output : String) : Int :=
  ((scanWith matchTestResultPassed output.data).map (fun d => (digitsToNat d : Int))).sum

/-- Embedding of `_count_failed` from `test_gate.py`: pattern `(\d+) failed`. -/
def _count_failed (output : String) : Int :=
  ((scanWith (matchLitRunLit "" Char.isDigit " failed") output.data).map
    (fun d => (digitsToNat d : Int))).sum

/-- The `---- (\S+) stdout ----` scan of `_extract_failed_tests`. -/
def stdoutBlockNames (output : String) : List String :=
  scanWith (matchLitRunLit "---- " (fun c => !isPySpace c) " stdout ----") output.data

/-- The `test (\S+) \.\.\. FAILED` scan of `_extract_failed_tests`. -/
def failedLineNames (output : String) : List String :=
  scanWith (matchLitRunLit "test " (fun c => !isPySpace c) " ... FAILED") output.data

/-- Embedding of `_extract_failed_tests` from `test_gate.py`: all stdout-block
names are collected first, then each FAILED-line name is appended when not
already present. -/
def _extract_failed_tests (output : String) : List String :=
  let failed := stdoutBlockNames output
  (failedLineNames output).foldl
    (fun acc n => if n ∈ acc then acc else acc ++ [n]) failed

/-- String starts-with, Python `str.startswith`. -/
def startsWithStr (s pre : String) : Bool :=
  startsWithSeq s.data pre.data

/-- Python `str.strip()` (ASCII whitespace). -/
def pyStrip (s : String) : String :=
  String.mk (((s.data.dropWhile fun c => isPySpace c).reverse.dropWhile
    fun c => isPySpace c).reverse)

/-- First `n` characters, Python `s[:n]`. -/
def strTake (s : String) (n : Nat) : String :=
  String.mk (s.data.take n)

/-- Embedding of `_extract_compiler_errors` from `test_gate.py`.  Lines are
modelled by splitting on the newline character. -/
def _extract_compiler_errors (output : String) : List String :=
  (((pySplitLines output).filter fun line =>
    startsWithStr line "error[" || startsWithStr line "error:").map pyStrip).take 20

/-- Embedding of `_compact_output` from `test_gate.py`. -/
def _compact_output (output : String) (max_lines : Nat := 50) : String :=
  let lines := pySplitLines output
  if lines.length ≤ max_lines then output
  else
    strJoin "\n"
      (lines.take 10 ++ ["... (truncated) ..."] ++ lines.drop (lines.length - 40))

/-- Decimal rendering with one fractional digit for the `:.1f` format
specifier, on the exact rational value (CPython formats the nearest binary
double instead; no claim depends on the rendered digits). -/
def fmt1f (q : ℚ) : String :=
  let n : Int := round (q * 10)
  if n < 0 then
    "-" ++ toString ((-n) / 10) ++ "." ++ toString ((-n) % 10)
  else
    toString (n / 10) ++ "." ++ toString (n % 10)

/-- Embedding of `format_compact` from `test_gate.py`. -/
def format_compact (result : TestResult) : String :=
  if result.passed then
    "OK: " ++ toString result.passed_tests ++ "/" ++ toString result.total_tests ++
      " tests passing (" ++ fmt1f result.duration_seconds ++ "s)"
  else
    let lines := ((result.compiler_errors.take 5).map fun err => "ERROR: " ++ err) ++
      ((result.failed_tests.take 5).map fun name => "ERROR: " ++ name ++ " — FAILED")
    let lines := if 0 < result.regressions then
        lines ++ ["REGRESSION: " ++ toString result.regressions ++ " tests broke vs baseline"]
      else lines
    if lines.isEmpty then
      "ERROR: tests failed (" ++ strTake result.output 100 ++ ")"
    else
      strJoin "\n" lines

/-- The observable result of one external command run by `_run_cmd`. -/
structure CmdOutput where
  rc : Int
  stdout : String
  stderr : String
deriving DecidableEq, Repr

/-- Embedding of the test-running part of `run_test_level` from `test_gate.py`
(the FAST/NORMAL/FULL branch before the trunk step): the raw process output is
an oracle input, and the `TestResult` is built exactly as in the source, with
`regressions` left at its schema default of 0. -/
def run_test_level_tests (level : TestLevel) (o : CmdOutput) (duration : ℚ) : TestResult :=
  let output := o.stdout ++ o.stderr
  let passed_count := _count_passing output
  let failed_count := _count_failed output
  { level
    passed := o.rc = 0
    total_tests := passed_count + failed_count
    passed_tests := passed_count
    failed_tests := _extract_failed_tests output
    compiler_errors := _extract_compiler_errors output
    output := _compact_output output
    duration_seconds := duration }

/-! ## agent_runner.py — RESULT-block parsing

`_parse_result_block` uses `re.search` with four patterns.  The block
pattern `## RESULT\s*\n(.*?)(?:\n##|\Z)` (DOTALL) is embedded below:
the greedy `\s*` followed by the mandatory `\n` lands right after the
last newline of the whitespace run following the header, and the lazy
`(.*?)` stops at the first `\n##` or at end of text.
-/

/-- Characters up to (excluding) the first occurrence of `stop`. -/
def takeUntilSeq (stop : List Char) : List Char → List Char
  | [] => []
  | c :: rest =>
    if startsWithSeq (c :: rest) stop then []
    else c :: takeUntilSeq stop rest

/-- Given the text right after the `## RESULT` header, consume `\s*\n`:
the whitespace run must contain a newline, and the block starts after the
last newline of that run. -/
def blockStartAfterHeader (s1 : List Char) : Option (List Char) :=
  let w := takeRun isPySpace s1
  if '\n' ∈ w then
    some (s1.drop (w.length - (w.reverse.takeWhile fun c => c ≠ '\n').length))
  else none

/-- The `re.search(r"## RESULT\s*\n(.*?)(?:\n##|\Z)", text, re.DOTALL)` scan:
first position where the header, the `\s*\n`, and the block match; the
captured block runs to the first `\n##` or to the end of the text. -/
def findResultBlock : List Char → Option String
  | [] => none
  | c :: rest =>
    match matchAfterLit "## RESULT" (c :: rest) with
    | some s1 =>
      match blockStartAfterHeader s1 with
      | some bs => some (String.mk (takeUntilSeq "\n##".data bs))
      | none => findResultBlock rest
    | none => findResultBlock rest

/-- `re.search` for a literal followed by `\s*` and a nonempty run of
`p`-characters (the `STATUS:\s*(\w+)` and `TESTS_ADDED:\s*(\d+)` patterns);
returns the captured run. -/
def searchLitWsRun (lit : String) (p : Char → Bool) : List Char → Option String
  | [] => none
  | c :: rest =>
    match matchAfterLit lit (c :: rest) with
    | some s1 =>
      let run := takeRun p (dropRun isPySpace s1)
      if run.isEmpty then searchLitWsRun lit p rest
      else some (String.mk run)
    | none => searchLitWsRun lit p rest

/-- `re.search` for a literal followed by `\s*(.+)` without DOTALL (the
`FILES_MODIFIED:` and `ERRORS:` patterns).  The greedy `\s*` eats the whole
whitespace run when a non-newline character follows; at end of text it backs
up to the last non-newline whitespace character, whose capture is that single
character. -/
def searchLitDotPlus (lit : String) : List Char → Option String
  | [] => none
  | c :: rest =>
    match matchAfterLit lit (c :: rest) with
    | some s1 =>
      match dropRun isPySpace s1 with
      | s2h :: s2t => some (String.mk (takeRun (fun ch => ch ≠ '\n') (s2h :: s2t)))
      | [] =>
        match ((takeRun isPySpace s1).reverse.dropWhile fun ch => ch = '\n') with
        | [] => searchLitDotPlus lit rest
        | ch :: _ => some (String.mk [ch])
    | none => searchLitDotPlus lit rest

/-- Embedding of `_parse_result_block` from `agent_runner.py`. -/
def _parse_result_block (text : String) : AgentResult :=
  match findResultBlock text.data with
  | none => { status := .success }
  | some block =>
    let b := block.data
    let result : AgentResult := {}
    let result :=
      match searchLitWsRun "STATUS:" isWordChar b with
      | none => result
      | some w =>
        { result with
          status := if strLower w = "success" then .success else .failed }
    let result :=
      match searchLitDotPlus "FILES_MODIFIED:" b with
      | none => result
      | some g =>
        let files := (((splitStrChar ',' g).filter fun f => pyStrip f ≠ "").map pyStrip)
        { result with files_modified := files.filter fun f => strLower f ≠ "none" }
    let result :=
      match searchLitWsRun "TESTS_ADDED:" Char.isDigit b with
      | none => result
      | some d => { result with tests_added := (digitsToNat d : Int) }
    let result :=
      match searchLitDotPlus "ERRORS:" b with
      | none => result
      | some g =>
        let err_text := pyStrip g
        if strLower err_text ≠ "none" then { result with errors := [err_text] }
        else result
    result

/-! ## agent_runner.py — subprocess environment

`AgentRunner._execute` launches the worker with
`env={**os.environ, "NO_COLOR": "1"}`.  An environment is modelled as a
partial map from variable names to values.
-/

/-- The environment passed to the worker subprocess by `AgentRunner._execute`:
the inherited `os.environ` overridden with `NO_COLOR=1` and nothing else. -/
def agent_exec_env (os_environ : String → Option String) : String → Option String :=
  fun k => if k = "NO_COLOR" then some "1" else os_environ k

/-! ## db.py — persistent store (modelled slice)

The SQLite store is modelled as in-memory tables.  Timestamp columns
(`created_at`, `updated_at`, `completed_at`, `started_at`) read the wall
clock and are not modelled; the kwargs-generic `update_task` and
`update_agent_run` are embedded at their concrete call sites.
-/

/-- A row of the `tasks` table (modelled columns). -/
structure TaskRow where
  id : String
  project_path : String := ""
  description : String := ""
  status : String := "pending"
  integration_branch : String := ""
  total_cost_usd : ℚ := 0
  total_tokens : Int := 0
  error : String := ""
deriving DecidableEq, Repr

/-- A row of the `agent_runs` table (modelled columns). -/
structure AgentRunRow where
  id : Nat
  task_id : String
  role : String
  status : String := "pending"
  model : String := "sonnet"
  branch_name : String := ""
  worktree_path : String := ""
  output : String := ""
  cost_usd : ℚ := 0
  input_tokens : Int := 0
  output_tokens : Int := 0
  duration_seconds : ℚ := 0
  files_modified : String := ""
  error : String := ""
deriving DecidableEq, Repr

/-- A row of the `regression_log` table. -/
structure RegressionLogRow where
  task_id : String
  agent_role : String
  tests_before : Int
  tests_after : Int
  regressions : Int
  new_tests : Int
  regression_rate : ℚ
deriving DecidableEq, Repr

/-- The modelled store. -/
structure DB where
  tasks : List TaskRow := []
  agent_runs : List AgentRunRow := []
  regression_log : List RegressionLogRow := []
  next_run_id : Nat := 1
deriving DecidableEq, Repr

/-- Embedding of `create_task` from `db.py`; the generated uuid is an input. -/
def db_create_task (db : DB) (task_id project_path description : String) : DB :=
  { db with tasks := db.tasks ++
      [{ id := task_id, project_path, description, status := "pending" }] }

/-- One `update_task` write: apply a field update to the task row. -/
def updateTaskRow (db : DB) (task_id : String) (f : TaskRow → TaskRow) : DB :=
  { db with tasks := db.tasks.map fun r => if r.id = task_id then f r else r }

/-- Embedding of `create_agent_run` from `db.py`: inserts a `running` row and
returns its autoincrement id. -/
def db_create_agent_run (db : DB)
    (task_id role model branch_name worktree_path : String) : DB × Nat :=
  let rid := db.next_run_id
  ({ db with
      agent_runs := db.agent_runs ++
        [{ id := rid, task_id, role, status := "running", model,
           branch_name, worktree_path }]
      next_run_id := rid + 1 }, rid)

/-- One `update_agent_run` write: apply a field update to the run row. -/
def updateAgentRunRow (db : DB) (run_id : Nat) (f : AgentRunRow → AgentRunRow) : DB :=
  { db with agent_runs := db.agent_runs.map fun r => if r.id = run_id then f r else r }

/-- Embedding of `log_regression` from `db.py`. -/
def db_log_regression (db : DB) (task_id agent_role : String)
    (tests_before tests_after regressions new_tests : Int) : DB :=
  let rate : ℚ := if 0 < tests_before then (regressions : ℚ) / (tests_before : ℚ) else 0
  { db with regression_log := db.regression_log ++
      [{ task_id, agent_role, tests_before, tests_after, regressions,
         new_tests, regression_rate := rate }] }

/-- The task row with the given id, if present. -/
def taskRowOf (db : DB) (task_id : String) : Option TaskRow :=
  db.tasks.find? fun r => r.id = task_id

/-- All `agent_runs` rows of a task. -/
def agentRunsOf (db : DB) (task_id : String) : List AgentRunRow :=
  db.agent_runs.filter fun r => r.task_id = task_id

/-- Sum of the persisted `cost_usd` column over a task's `agent_runs` rows. -/
def runCostSum (db : DB) (task_id : String) : ℚ :=
  ((agentRunsOf db task_id).map fun r => r.cost_usd).sum

/-- Sum of the token-derived cost `calculate_cost(model, input_tokens,
output_tokens)` over a task's `agent_runs` rows. -/
def runTokenCostSum (db : DB) (task_id : String) : ℚ :=
  ((agentRunsOf db task_id).map fun r =>
    calculate_cost r.model r.input_tokens r.output_tokens).sum

/-! ## agent_runner.py — `AgentRunner.run` persistence -/

/-- The `.value` of an `AgentStatus`, as persisted by `update_agent_run`. -/
def AgentStatus.value : AgentStatus → String
  | .pending => "pending"
  | .running => "running"
  | .success => "success"
  | .failed => "failed"
  | .retrying => "retrying"

/-- Embedding of `AgentRunner.run` restricted to its observable effects: the
`_execute` call (child process, JSON parsing and RESULT-block parsing) is an
oracle `Except String AgentResult` — `.error e` is an exception raised out of
`_execute` — and `duration` is the elapsed-time reading.  Creates the
`agent_runs` row, updates it on return or on exception exactly as the two
`update_agent_run` call sites do, and returns the `AgentResult`. -/
def runner_run (db : DB) (agent_config : AgentConfig) (task_id cwd : String)
    (exec_outcome : Except String AgentResult) (duration : ℚ) : DB × AgentResult :=
  let (db1, run_id) :=
    db_create_agent_run db task_id agent_config.role agent_config.model "" cwd
  match exec_outcome with
  | .ok result0 =>
    let result := { result0 with duration_seconds := duration }
    let db2 := updateAgentRunRow db1 run_id fun r =>
      { r with
        status := result.status.value
        output := strTake result.raw_output 10000
        cost_usd := result.cost_usd
        input_tokens := result.input_tokens
        output_tokens := result.output_tokens
        duration_seconds := duration
        files_modified := strJoin "," result.files_modified }
    (db2, result)
  | .error e =>
    let db2 := updateAgentRunRow db1 run_id fun r =>
      { r with status := "failed", error := strTake e 500, duration_seconds := duration }
    (db2, { status := .failed, errors := [e], duration_seconds := duration })

/-! ## orchestrator.py -/

/-- The `planner` entry of `AGENT_DEFAULTS` in `orchestrator.py`. -/
def plannerConfig : AgentConfig :=
  { role := "planner", prompt_file := "~/.claude/agents/cotg-planner.md",
    model := "opus", timeout := 120, budget_usd := 3 }

/-- Embedding of `AGENT_DEFAULTS` from `orchestrator.py` (`expanduser` on the
prompt-file paths is not modelled; the literal `~` paths are kept). -/
def AGENT_DEFAULTS (role : String) : Option AgentConfig :=
  if role = "planner" then
    some plannerConfig
  else if role = "rust-backend" then
    some { role := "rust-backend", prompt_file := "~/.claude/agents/cotg-rust-backend.md",
           model := "sonnet", timeout := 600, budget_usd := 3/2 }
  else if role = "rust-frontend" then
    some { role := "rust-frontend", prompt_file := "~/.claude/agents/cotg-rust-frontend.md",
           model := "sonnet", timeout := 600, budget_usd := 3/2 }
  else if role = "rust-database" then
    some { role := "rust-database", prompt_file := "~/.claude/agents/cotg-rust-database.md",
           model := "sonnet", timeout := 300, budget_usd := 3/2 }
  else if role = "rust-architect" then
    some { role := "rust-architect", prompt_file := "~/.claude/agents/cotg-rust-architect.md",
           model := "sonnet", timeout := 300, budget_usd := 2 }
  else if role = "tester-cargo" then
    some { role := "tester-cargo", prompt_file := "~/.claude/agents/cotg-tester-cargo.md",
           model := "sonnet", timeout := 600, budget_usd := 1 }
  else none

/-- The orchestrator-relevant configuration values read from `self.config`. -/
structure OrchConfig where
  build_max_retries : Nat
  build_budget_usd : ℚ
deriving DecidableEq, Repr

/-- Python-dict style insert-or-update on an association list, preserving
insertion order as `dict` does. -/
def setAssoc {α : Type} (l : List (String × α)) (k : String) (v : α) :
    List (String × α) :=
  if k ∈ l.map Prod.fst then l.map fun p => if p.1 = k then (k, v) else p
  else l ++ [(k, v)]

/-- Insert-or-update a dashboard entry (Python dict assignment). -/
def setEntry (l : List (String × AgentDashboardEntry)) (role : String)
    (e : AgentDashboardEntry) : List (String × AgentDashboardEntry) :=
  setAssoc l role e

/-- Mutable state of one `Orchestrator` (plus the store it writes through to):
`dashboard_entries` and the worktree map are insertion-ordered dicts, and
`regression_per_agent` is the `RegressionTracker.per_agent` dict. -/
structure OrchState where
  db : DB
  cost_tracker : CostTracker
  dashboard_entries : List (String × AgentDashboardEntry) := []
  handoff_lines : List String := []
  worktrees : List (String × String) := []
  regression_per_agent : List (String × TestDelta) := []
deriving DecidableEq, Repr

/-- External observations consumed by one attempt of `_execute_agent`:
the `_execute` outcome and timer reading of the `AgentRunner`, and the raw
process output and timer reading of the FAST test gate. -/
structure AttemptOutcome where
  exec : Except String AgentResult
  exec_duration : ℚ
  gate : CmdOutput
  gate_duration : ℚ

/-- The handoff summary appended after a successful agent. -/
def mkHandoffDone (role : String) (result : AgentResult) : String :=
  "## " ++ role ++ " (done)\nFiles: " ++ strJoin ", " result.files_modified ++
    "\nTests added: " ++ toString result.tests_added

/-- The retry loop of `Orchestrator._execute_agent` (`for attempt in
range(1, max_retries+1)`), with the remaining attempt count as fuel.
Returns the list of `error_context` values passed into the attempts that ran
(in order), the final state, and `some e` when the loop raised after
exhausting its retries.  `RegressionTracker.check` is inlined: the tracker is
always constructed before agents run. -/
def agent_attempt_loop (baseline : TestBaseline) (task_id : String)
    (agent_config : AgentConfig) (agent_task : AgentTask) (wt_path : String)
    (oracle : Nat → AttemptOutcome) (max_retries : Nat) :
    Nat → OrchState → String → Nat → List String × OrchState × Option String
  | _, st, _, 0 =>
    let entry : AgentDashboardEntry := { role := agent_task.role, status := "error" }
    let st1 := { st with
      dashboard_entries := setEntry st.dashboard_entries agent_task.role entry }
    ([], st1, some ("Agent " ++ agent_task.role ++ " failed after " ++
      toString max_retries ++ " retries"))
  | attempt, st, error_context, fuel + 1 =>
    let o := oracle attempt
    let (db1, result) :=
      runner_run st.db agent_config task_id wt_path o.exec o.exec_duration
    let (ct1, _) := st.cost_tracker.recordOk agent_task.role agent_config.model
      result.input_tokens result.output_tokens result.duration_seconds
    let level1 := run_test_level_tests .fast o.gate o.gate_duration
    let st1 := { st with db := db1, cost_tracker := ct1 }
    if result.status = .success ∧ level1.passed then
      let entry : AgentDashboardEntry :=
        { role := agent_task.role, status := "done",
          cost_usd := ct1.total_cost,
          duration_seconds := result.duration_seconds,
          tokens := result.input_tokens + result.output_tokens }
      let st2 := { st1 with
        dashboard_entries := setEntry st1.dashboard_entries agent_task.role entry,
        handoff_lines := st1.handoff_lines ++ [mkHandoffDone agent_task.role result] }
      ([error_context], st2, none)
    else
      let ec1 := format_compact level1
      let ec2 :=
        if result.errors ≠ [] then ec1 ++ "\n" ++ strJoin "\n" result.errors
        else ec1
      let delta := compare_to_baseline baseline level1
      let db2 := db_log_regression st1.db task_id agent_task.role
        delta.total_before delta.total_after delta.newly_failing delta.newly_added
      let ec3 :=
        if 0 < delta.newly_failing then
          ec2 ++ "\nREGRESSION: " ++ toString delta.newly_failing ++ " tests broke"
        else ec2
      let st2 := { st1 with
        db := db2,
        regression_per_agent := setAssoc st1.regression_per_agent agent_task.role delta }
      let next := agent_attempt_loop baseline task_id agent_config agent_task wt_path
        oracle max_retries (attempt + 1) st2 ec3 fuel
      (error_context :: next.1, next.2)


/-- Embedding of `Orchestrator._execute_agent`: unknown roles are skipped with
a warning; known roles get a dashboard row and a worktree and then run the
retry loop; on the loop's raise, the `except` branch removes the agent's
worktree and re-raises. -/
def execute_agent (cfg : OrchConfig) (baseline : TestBaseline)
    (task_id project_path : String) (oracle : Nat → AttemptOutcome)
    (st : OrchState) (agent_task : AgentTask) :
    List String × OrchState × Option String :=
  match AGENT_DEFAULTS agent_task.role with
  | none => ([], st, none)
  | some agent_config =>
    let st1 := { st with
      dashboard_entries := setEntry st.dashboard_entries agent_task.role
        { role := agent_task.role, status := "running" } }
    let wt_path := project_path ++ "/.cotg-worktrees/" ++ task_id ++ "/" ++ agent_task.role
    let st2 := { st1 with worktrees := setAssoc st1.worktrees agent_task.role wt_path }
    let r := agent_attempt_loop baseline task_id agent_config agent_task wt_path
      oracle cfg.build_max_retries 1 st2 "" cfg.build_max_retries
    match r.2.2 with
    | none => r
    | some e =>
      (r.1,
       { r.2.1 with worktrees := r.2.1.worktrees.filter fun p => p.1 ≠ agent_task.role },
       some e)

/-! ## orchestrator.py — the `execute` pipeline -/

/-- External observations consumed by one full `Orchestrator.execute` run:
the generated task id, the captured baseline (two external cargo runs and a
hash), the planner invocation, the parsed plan's agent list (the JSON
extraction from free text is abstracted: both the parsed and the fallback
single-backend plan are instances), the per-agent per-attempt outcomes,
the merge conflict list, and the post-merge NORMAL gate output. -/
structure PipelineOracle where
  task_id : String
  baseline : TestBaseline
  planner_exec : Except String AgentResult
  planner_duration : ℚ
  plan_agents : List AgentTask
  attempts : Nat → Nat → AttemptOutcome
  merge_conflicts : List String
  level2 : CmdOutput
  level2_duration : ℚ

/-- Embedding of `Orchestrator._set_status`: records the status in the task
row (progress emission is a best-effort callback with no modelled state). -/
def set_status (st : OrchState) (task_id status : String) : OrchState :=
  { st with db := updateTaskRow st.db task_id fun r => { r with status := status } }

/-- The `except` branch of `Orchestrator.execute`: status ERROR plus the
`update_task(status="error", error=str(e)[:500])` write. -/
def finishError (st : OrchState) (task_id e : String) : OrchState :=
  let st1 := set_status st task_id "error"
  { st1 with db := updateTaskRow st1.db task_id fun r =>
      { r with status := "error", error := strTake e 500 } }

/-- Embedding of `Orchestrator._run_planner` restricted to its observable
effects: run the planner agent in the project root, record its cost, append
the plan handoff line; the parsed agent list is the oracle's. -/
def run_planner (st : OrchState) (task_id project_path description : String)
    (exec_outcome : Except String AgentResult) (duration : ℚ)
    (plan_agents : List AgentTask) : OrchState × List AgentTask :=
  let (db1, result) := runner_run st.db plannerConfig task_id project_path
    exec_outcome duration
  let (ct1, _) := st.cost_tracker.recordOk "planner" plannerConfig.model
    result.input_tokens result.output_tokens result.duration_seconds
  ({ st with
      db := db1
      cost_tracker := ct1
      handoff_lines := st.handoff_lines ++ ["## Plan\n" ++ description] },
   plan_agents)

/-- The agent loop of `Orchestrator.execute` step 5: before each agent task,
break when the budget is exceeded; a raise from `_execute_agent` propagates. -/
def run_agents (cfg : OrchConfig) (baseline : TestBaseline)
    (task_id project_path : String) (attempts : Nat → Nat → AttemptOutcome) :
    OrchState → List AgentTask → Nat → OrchState × Option String
  | st, [], _ => (st, none)
  | st, t :: rest, idx =>
    if st.cost_tracker.budget_exceeded then (st, none)
    else
      let r := execute_agent cfg baseline task_id project_path (attempts idx) st t
      match r.2.2 with
      | some e => (r.2.1, some e)
      | none => run_agents cfg baseline task_id project_path attempts r.2.1 rest (idx + 1)

/-- Embedding of `Orchestrator.execute`: create the task and tracker, run the
planner, execute the agents with test gates, merge, run the NORMAL gate, and
update the task row; any raise is translated by the `except` branch into the
`error` status; the `finally` block clears the worktree map. -/
def orchestrator_execute (cfg : OrchConfig) (project_path description : String)
    (o : PipelineOracle) (db0 : DB) : OrchState :=
  let tid := o.task_id
  let db1 := db_create_task db0 tid project_path description
  let st0 : OrchState := { db := db1, cost_tracker := .init tid cfg.build_budget_usd }
  let st1 := set_status st0 tid "planning"
  let (st2, plan_agents) := run_planner st1 tid project_path description
    o.planner_exec o.planner_duration o.plan_agents
  let st3 := set_status st2 tid "executing"
  let (st4, err) := run_agents cfg o.baseline tid project_path o.attempts st3 plan_agents 0
  let final :=
    match err with
    | some e => finishError st4 tid e
    | none =>
      let st5 := set_status st4 tid "merging"
      if o.merge_conflicts ≠ [] then
        finishError st5 tid
          ("Merge conflicts: " ++ strJoin "; " o.merge_conflicts)
      else
        let st6 := { st5 with db := updateTaskRow st5.db tid fun r =>
            { r with integration_branch := "cotg/integration/" ++ tid } }
        let st7 := set_status st6 tid "testing"
        let level2 := run_test_level_tests .normal o.level2 o.level2_duration
        if level2.passed then
          let st8 := set_status st7 tid "done"
          { st8 with db := updateTaskRow st8.db tid fun r =>
              { r with
                status := "done"
                total_cost_usd := st8.cost_tracker.total_cost
                total_tokens := st8.cost_tracker.total_tokens } }
        else
          finishError st7 tid ("Level 2 tests failed after merge: " ++ format_compact level2)
  { final with worktrees := [] }

/-! ## Auxiliary definitions used by the verification -/

/-- Pure twin of `checkLoop` for a non-raising callback: the updated fired set
and the fired thresholds, in order. -/
def fireList (pct : ℚ) : List Nat → List Nat → List Nat × List Nat
  | fired, [] => (fired, [])
  | fired, t :: rest =>
    if (t : ℚ) ≤ pct ∧ t ∉ fired then
      let r := fireList pct (t :: fired) rest
      (r.1, t :: r.2)
    else fireList pct fired rest

/-- A callback that always raises. -/
def errCallback (e : String) : ThresholdCallback := fun _ _ _ _ => .error e

/-- One `record` call with a non-raising callback, taking the call arguments
as a `RecordCall`. -/
def recordStep (c : CostTracker) (r : RecordCall) : CostTracker × List Nat :=
  c.recordOk r.agent_role r.model r.input_tokens r.output_tokens r.duration_seconds

/-- Store well-formedness: agent-run ids are below the autoincrement counter. -/
def DB.wf (db : DB) : Prop :=
  ∀ r ∈ db.agent_runs, r.id < db.next_run_id

/-- The cost-accounting invariant tying the tracker to the store: the tracker
total equals the token-derived cost summed over the task's persisted rows. -/
def CostInv (tid : String) (st : OrchState) : Prop :=
  DB.wf st.db ∧ st.cost_tracker.total_cost = runTokenCostSum st.db tid

/-- The FAST-gate `TestResult` of attempt `i`, as computed inside the retry
loop from the oracle's raw process output. -/
def gateResultOf (oracle : Nat → AttemptOutcome) (i : Nat) : TestResult :=
  run_test_level_tests .fast (oracle i).gate (oracle i).gate_duration

/-- A concrete attempt observation: the agent reports failure and the FAST
gate exits nonzero with 8 of the baseline's 10 tests passing. -/
def regressionOutcome : AttemptOutcome :=
  { exec := .ok { status := .failed }
    exec_duration := 0
    gate := { rc := 101, stdout := "test result: FAILED. 8 passed; 2 failed; 0 ignored",
              stderr := "" }
    gate_duration := 0 }

/-- Oracle giving `regressionOutcome` on every attempt. -/
def regressionOracle : Nat → AttemptOutcome := fun _ => regressionOutcome

/-- A 10-tests-all-passing baseline. -/
def baselineTenPassing : TestBaseline := { total_tests := 10, passing_tests := 10 }

/-- A backend agent task. -/
def backendTask : AgentTask := { role := "rust-backend", description := "d" }

/-- An agent task whose role is not configured in `AGENT_DEFAULTS`. -/
def unknownRoleTask : AgentTask := { role := "go-backend", description := "d" }

/-- A fresh orchestrator state over an empty store. -/
def stateZero : OrchState := { db := {}, cost_tracker := .init "t" 15 }

/-- A full-pipeline observation: the planner reports a CLI cost of $1 with
zero token counts, the plan has no agent tasks, the merge is clean and the
post-merge gate passes. -/
def planOnlyOracle : PipelineOracle :=
  { task_id := "t1"
    baseline := {}
    planner_exec := .ok { cost_usd := 1 }
    planner_duration := 0
    plan_agents := []
    attempts := fun _ _ =>
      { exec := .ok {}, exec_duration := 0
        gate := { rc := 0, stdout := "", stderr := "" }, gate_duration := 0 }
    merge_conflicts := []
    level2 := { rc := 0, stdout := "", stderr := "" }
    level2_duration := 0 }

/-! ## Lemmas about the cost tracker -/

/-- With a non-raising callback, `checkLoop` never raises and computes
`fireList`. -/
theorem checkLoop_okCallback (tid : String) (tot bud pct : ℚ) :
    ∀ (ts fired : List Nat),
      checkLoop okCallback tid tot bud pct fired ts = .ok (fireList pct fired ts) := by
  intro ts
  induction ts with
  | nil => intro fired; rfl
  | cons t rest ih =>
    intro fired
    by_cases h : (t : ℚ) ≤ pct ∧ t ∉ fired
    · simp [checkLoop, fireList, h, ih, okCallback]
    · simp [checkLoop, fireList, h, ih]

/-- Unfolding of `recordOk`: append the snapshot, then fire thresholds at the
new budget percentage. -/
theorem recordOk_eq (c : CostTracker) (role model : String) (inp out : Int) (dur : ℚ) :
    c.recordOk role model inp out dur =
      (let snap : CostSnapshot :=
        { agent_role := role, model, input_tokens := inp, output_tokens := out,
          cost_usd := calculate_cost model inp out, duration_seconds := dur }
       let c1 : CostTracker := { c with snapshots := c.snapshots ++ [snap] }
       let r := fireList c1.budget_percent c.thresholds_fired BUDGET_THRESHOLDS
       ({ c1 with thresholds_fired := r.1 }, r.2)) := by
  simp [CostTracker.recordOk, CostTracker.record, CostTracker.check_thresholds,
    checkLoop_okCallback]

/-- When no threshold in the list is crossed, `fireList` fires nothing. -/
theorem fireList_no_cross (pct : ℚ) :
    ∀ (ts fired : List Nat), (∀ t ∈ ts, ¬((t : ℚ) ≤ pct)) →
      fireList pct fired ts = (fired, []) := by
  intro ts
  induction ts with
  | nil => intro fired _; rfl
  | cons t rest ih =>
    intro fired h
    have ht : ¬((t : ℚ) ≤ pct) := h t (by simp)
    have : ¬((t : ℚ) ≤ pct ∧ t ∉ fired) := fun hc => ht hc.1
    simp only [fireList, if_neg this]
    exact ih fired fun u hu => h u (by simp [hu])

/-- If the harmless-callback run of the same `record` call would invoke the
callback, then with an always-raising callback `record` propagates the
exception. -/
theorem checkLoop_errCallback_of_fires (tid : String) (tot bud pct : ℚ) (e : String) :
    ∀ (ts fired : List Nat), (fireList pct fired ts).2 ≠ [] →
      checkLoop (errCallback e) tid tot bud pct fired ts = .error e := by
  intro ts
  induction ts with
  | nil => intro fired h; simp [fireList] at h
  | cons t rest ih =>
    intro fired h
    by_cases hc : (t : ℚ) ≤ pct ∧ t ∉ fired
    · simp [checkLoop, hc, errCallback]
    · simp only [fireList, if_neg hc] at h
      simp only [checkLoop, if_neg hc]
      exact ih fired h

/-! ## Claim C2 — threshold-callback exceptions -/

/-- C2 counterexample: the claim says a raising threshold callback is caught
inside `record` and not propagated; but `_check_thresholds` has no try/except,
so on a tracker with budget $1 whose first recorded cost is $1.50 the
callback's exception escapes `record` to its caller. -/
theorem record_callback_error_counterexample :
    CostTracker.record (errCallback "boom") (.init "t" 1) "r" "opus" 100000 0 0 =
      .error "boom" := by
  norm_num [CostTracker.record, CostTracker.check_thresholds, checkLoop,
    CostTracker.init, CostTracker.total_cost, CostTracker.budget_percent,
    calculate_cost, MODEL_RATES, BUDGET_THRESHOLDS, errCallback]

/-- C2 (amended): if the threshold callback raises when `record` invokes it
(the harmless-callback run of the same call observes at least one invocation),
the exception propagates to the caller of `record`; nothing catches it. -/
theorem record_callback_error_propagates (c : CostTracker) (role model : String)
    (inp out : Int) (dur : ℚ) (e : String)
    (hfires : (c.recordOk role model inp out dur).2 ≠ []) :
    c.record (errCallback e) role model inp out dur = .error e := by
  rw [recordOk_eq] at hfires
  simp only at hfires
  simp only [CostTracker.record, CostTracker.check_thresholds]
  rw [checkLoop_errCallback_of_fires _ _ _ _ _ _ _ hfires]

/-- C2 witness for the amended theorem at a concrete input. -/
theorem record_callback_error_propagates_witness :
    CostTracker.record (errCallback "x") (.init "w" 2) "r" "opus" 200000 0 0 =
      .error "x" :=
  record_callback_error_propagates (.init "w" 2) "r" "opus" 200000 0 0 "x" (by
    rw [recordOk_eq]
    norm_num [fireList, CostTracker.init, CostTracker.total_cost,
      CostTracker.budget_percent, calculate_cost, MODEL_RATES, BUDGET_THRESHOLDS]
    decide)

/-- One `recordOk` call keeps `task_id` and `budget_usd`. -/
theorem recordOk_budget (c : CostTracker) (role model : String)
    (inp out : Int) (dur : ℚ) :
    (c.recordOk role model inp out dur).1.budget_usd = c.budget_usd ∧
    (c.recordOk role model inp out dur).1.task_id = c.task_id := by
  rw [recordOk_eq]
  exact ⟨rfl, rfl⟩

/-- `runRecords` keeps `task_id` and `budget_usd`. -/
theorem runRecords_budget (calls : List RecordCall) :
    ∀ c : CostTracker, (runRecords c calls).1.budget_usd = c.budget_usd ∧
      (runRecords c calls).1.task_id = c.task_id := by
  induction calls with
  | nil => intro c; exact ⟨rfl, rfl⟩
  | cons r rs ih =>
    intro c
    simp only [runRecords]
    refine ⟨?_, ?_⟩
    · rw [(ih _).1, (recordOk_budget c _ _ _ _ _).1]
    · rw [(ih _).2, (recordOk_budget c _ _ _ _ _).2]

/-! ## Claim C10 — nonpositive budget -/

/-- C10: a `CostTracker` constructed with `budget_usd ≤ 0` reports
`budget_percent = 0` after any sequence of `record` calls, never invokes the
threshold callback, and reports `budget_exceeded` already on construction. -/
theorem cost_tracker_nonpositive_budget (tid : String) (bud : ℚ) (hb : bud ≤ 0)
    (calls : List RecordCall) :
    (trackerAfter (CostTracker.init tid bud) calls).budget_percent = 0 ∧
    (∀ ev ∈ eventsOf (CostTracker.init tid bud) calls, ev = []) ∧
    (CostTracker.init tid bud).budget_exceeded = true := by
  have key : ∀ (cs : List RecordCall) (c : CostTracker), c.budget_usd ≤ 0 →
      ∀ ev ∈ (runRecords c cs).2, ev = [] := by
    intro cs
    induction cs with
    | nil => intro c _ ev hev; simp [runRecords] at hev
    | cons r rs ih =>
      intro c hc ev hev
      simp only [runRecords, List.mem_cons] at hev
      have hb1 : (c.recordOk r.agent_role r.model r.input_tokens r.output_tokens
          r.duration_seconds).1.budget_usd ≤ 0 := by
        rw [(recordOk_budget c _ _ _ _ _).1]; exact hc
      rcases hev with hev | hev
      · subst hev
        rw [recordOk_eq]
        simp only
        have hpz : ({ c with snapshots := c.snapshots ++
            [{ agent_role := r.agent_role, model := r.model,
               input_tokens := r.input_tokens, output_tokens := r.output_tokens,
               cost_usd := calculate_cost r.model r.input_tokens r.output_tokens,
               duration_seconds := r.duration_seconds }] } : CostTracker).budget_percent
            = 0 := by
          simp [CostTracker.budget_percent, hc]
        rw [hpz, fireList_no_cross]
        intro t ht
        have ht3 : t = 50 ∨ t = 80 ∨ t = 100 := by
          simpa [BUDGET_THRESHOLDS] using ht
        rcases ht3 with h | h | h <;> subst h <;> norm_num
      · exact ih _ hb1 ev hev
  refine ⟨?_, key calls _ (by simpa [CostTracker.init] using hb), ?_⟩
  · have hbud := (runRecords_budget calls (CostTracker.init tid bud)).1
    simp only [trackerAfter, CostTracker.budget_percent]
    rw [hbud]
    simp [CostTracker.init, hb]
  · simp [CostTracker.budget_exceeded, CostTracker.total_cost, CostTracker.init, hb]

/-- C10 witness at a concrete zero-budget tracker and one record call. -/
theorem cost_tracker_nonpositive_budget_witness :
    (trackerAfter (CostTracker.init "t" 0) [⟨"r", "opus", 100000, 0, 0⟩]).budget_percent = 0 ∧
    (∀ ev ∈ eventsOf (CostTracker.init "t" 0) [⟨"r", "opus", 100000, 0, 0⟩], ev = []) ∧
    (CostTracker.init "t" 0).budget_exceeded = true :=
  cost_tracker_nonpositive_budget "t" 0 (by norm_num) [⟨"r", "opus", 100000, 0, 0⟩]

/-! ## Claim C5 — baseline delta -/

/-- C5: `compare_to_baseline` computes `newly_failing = max(0, passing_before −
passing_after)` and `newly_added = max(0, total_after − total_before)`; both
are nonnegative, and `newly_failing = 0` whenever the result passes at least
as many tests as the baseline. -/
theorem compare_to_baseline_delta_spec (b : TestBaseline) (r : TestResult) :
    (compare_to_baseline b r).newly_failing = max 0 (b.passing_tests - r.passed_tests) ∧
    (compare_to_baseline b r).newly_added = max 0 (r.total_tests - b.total_tests) ∧
    0 ≤ (compare_to_baseline b r).newly_failing ∧
    0 ≤ (compare_to_baseline b r).newly_added ∧
    (b.passing_tests ≤ r.passed_tests → (compare_to_baseline b r).newly_failing = 0) := by
  refine ⟨rfl, rfl, le_max_left _ _, le_max_left _ _, fun h => ?_⟩
  simp only [compare_to_baseline]
  omega

/-- C5 witness at a concrete baseline and result. -/
theorem compare_to_baseline_delta_spec_witness :
    (compare_to_baseline { total_tests := 10, passing_tests := 10 }
        { level := .fast, passed := false, total_tests := 10, passed_tests := 8 }).newly_failing =
      max 0 ((10 : Int) - 8) ∧
    (compare_to_baseline { total_tests := 10, passing_tests := 10 }
        { level := .fast, passed := false, total_tests := 10, passed_tests := 8 }).newly_added =
      max 0 ((10 : Int) - 10) ∧
    0 ≤ (compare_to_baseline { total_tests := 10, passing_tests := 10 }
        { level := .fast, passed := false, total_tests := 10, passed_tests := 8 }).newly_failing ∧
    0 ≤ (compare_to_baseline { total_tests := 10, passing_tests := 10 }
        { level := .fast, passed := false, total_tests := 10, passed_tests := 8 }).newly_added ∧
    ((10 : Int) ≤ 8 → (compare_to_baseline { total_tests := 10, passing_tests := 10 }
        { level := .fast, passed := false, total_tests := 10, passed_tests := 8 }).newly_failing = 0) :=
  compare_to_baseline_delta_spec
    { total_tests := 10, passing_tests := 10 }
    { level := .fast, passed := false, total_tests := 10, passed_tests := 8 }

/-! ## Claim C8 — worker subprocess environment -/

/-- C8 counterexample: with an empty inherited environment, the environment
built by `AgentRunner._execute` contains `NO_COLOR=1` but no `TMPDIR` binding
at all, contradicting the claim that `TMPDIR` is set to `~/tmp` (that code
lives in `claude_runner._claude_env`, which the agent runner does not use). -/
theorem agent_env_no_tmpdir_counterexample :
    agent_exec_env (fun _ => none) "NO_COLOR" = some "1" ∧
    agent_exec_env (fun _ => none) "TMPDIR" = none := by
  constructor <;> rfl

/-- C8 (amended): the worker environment of `AgentRunner._execute` is the
inherited `os.environ` with exactly one override, `NO_COLOR=1`; in particular
`TMPDIR` is whatever the parent process had. -/
theorem agent_env_spec (os_environ : String → Option String) (k : String)
    (hk : k ≠ "NO_COLOR") :
    agent_exec_env os_environ "NO_COLOR" = some "1" ∧
    agent_exec_env os_environ "TMPDIR" = os_environ "TMPDIR" ∧
    agent_exec_env os_environ k = os_environ k := by
  refine ⟨rfl, rfl, ?_⟩
  simp [agent_exec_env, hk]

/-- C8 witness for the amended theorem at a concrete environment. -/
theorem agent_env_spec_witness :
    agent_exec_env (fun _ => some "v") "NO_COLOR" = some "1" ∧
    agent_exec_env (fun _ => some "v") "TMPDIR" = (fun _ => some "v" : String → Option String) "TMPDIR" ∧
    agent_exec_env (fun _ => some "v") "PATH" = (fun _ => some "v" : String → Option String) "PATH" :=
  agent_env_spec (fun _ => some "v") "PATH" (by decide)

/-! ## Claim C9 — unknown agent role is skipped -/

/-- C9: an agent task whose role is not in `AGENT_DEFAULTS` is skipped:
`_execute_agent` returns without touching the state (no worktree, no run, no
cost, no dashboard entry) and without raising, and the executing loop
continues with the next agent task. -/
theorem execute_agent_unknown_role_skips (cfg : OrchConfig) (baseline : TestBaseline)
    (task_id project_path : String) (oracle : Nat → AttemptOutcome)
    (attempts : Nat → Nat → AttemptOutcome) (st : OrchState) (task : AgentTask)
    (rest : List AgentTask) (idx : Nat)
    (h : AGENT_DEFAULTS task.role = none) :
    execute_agent cfg baseline task_id project_path oracle st task = ([], st, none) ∧
    (st.cost_tracker.budget_exceeded = false →
      run_agents cfg baseline task_id project_path attempts st (task :: rest) idx =
        run_agents cfg baseline task_id project_path attempts st rest (idx + 1)) := by
  constructor
  · simp [execute_agent, h]
  · intro hb
    simp [run_agents, hb, execute_agent, h]

/-- C9 witness: the role `go-backend` is not configured; the state is
untouched and the loop moves on. -/
theorem execute_agent_unknown_role_skips_witness :
    execute_agent ⟨3, 15⟩ {} "t" "p" regressionOracle stateZero unknownRoleTask =
      ([], stateZero, none) ∧
    run_agents ⟨3, 15⟩ {} "t" "p" (fun _ => regressionOracle) stateZero [unknownRoleTask] 0 =
      run_agents ⟨3, 15⟩ {} "t" "p" (fun _ => regressionOracle) stateZero [] 1 := by
  have h := execute_agent_unknown_role_skips ⟨3, 15⟩ {} "t" "p" regressionOracle
    (fun _ => regressionOracle) stateZero unknownRoleTask [] 0 (by rfl)
  exact ⟨h.1, h.2 (by rfl)⟩

/-! ## Claim C6 — failed-test name extraction -/

/-- Membership in the append-if-new fold of `_extract_failed_tests`. -/
theorem foldDedup_mem (l : List String) :
    ∀ (acc : List String) (x : String),
      (x ∈ l.foldl (fun acc n => if n ∈ acc then acc else acc ++ [n]) acc) ↔
        x ∈ acc ∨ x ∈ l := by
  induction l with
  | nil => intro acc x; simp
  | cons n rest ih =>
    intro acc x
    simp only [List.foldl_cons]
    rw [ih]
    by_cases hn : n ∈ acc
    · simp only [if_pos hn, List.mem_cons]
      constructor
      · rintro (h | h)
        · exact Or.inl h
        · exact Or.inr (Or.inr h)
      · rintro (h | h | h)
        · exact Or.inl h
        · exact Or.inl (h ▸ hn)
        · exact Or.inr h
    · simp only [if_neg hn, List.mem_append, List.mem_singleton, List.mem_cons]
      tauto

/-- The append-if-new fold never pushes an occurrence count above one. -/
theorem foldDedup_count (l : List String) :
    ∀ (acc : List String) (x : String), acc.count x ≤ 1 →
      (l.foldl (fun acc n => if n ∈ acc then acc else acc ++ [n]) acc).count x ≤ 1 := by
  induction l with
  | nil => intro acc x h; simpa using h
  | cons n rest ih =>
    intro acc x h
    simp only [List.foldl_cons]
    apply ih
    by_cases hn : n ∈ acc
    · simpa [if_pos hn] using h
    · simp only [if_neg hn, List.count_append]
      by_cases hx : x = n
      · subst hx
        have : acc.count x = 0 := List.count_eq_zero_of_not_mem hn
        simp [this]
      · simpa [List.count_singleton, hx] using h

/-- C6 (amended): the extracted list contains exactly the names matched by the
two patterns (a set-level union); all `---- <name> stdout ----` matches come
first, in scan order and with duplicates retained, and a name that never
occurs as a stdout-block match appears at most once. -/
theorem extract_failed_tests_union_spec (output : String) (n : String) :
    (n ∈ _extract_failed_tests output ↔
      n ∈ stdoutBlockNames output ∨ n ∈ failedLineNames output) ∧
    (n ∉ stdoutBlockNames output → (_extract_failed_tests output).count n ≤ 1) := by
  constructor
  · simp only [_extract_failed_tests]
    rw [foldDedup_mem]
  · intro hn
    simp only [_extract_failed_tests]
    apply foldDedup_count
    simp [List.count_eq_zero_of_not_mem hn]

/-- C6 counterexample: the claim promises first-seen order and no duplicates;
but a doubled stdout block yields the name twice, and a FAILED line that
precedes a stdout block in the text still lands after it in the list. -/
theorem extract_failed_tests_counterexample :
    _extract_failed_tests "---- a stdout ----\n---- a stdout ----" = ["a", "a"] ∧
    (_extract_failed_tests "---- a stdout ----\n---- a stdout ----").count "a" = 2 ∧
    _extract_failed_tests "test b ... FAILED\n---- a stdout ----" = ["a", "b"] := by
  refine ⟨by decide, by decide, by decide⟩

/-- C6 witness for the amended theorem at a concrete output. -/
theorem extract_failed_tests_union_spec_witness :
    ("b" ∈ _extract_failed_tests "test b ... FAILED" ↔
      "b" ∈ stdoutBlockNames "test b ... FAILED" ∨
        "b" ∈ failedLineNames "test b ... FAILED") ∧
    ("b" ∉ stdoutBlockNames "test b ... FAILED" →
      (_extract_failed_tests "test b ... FAILED").count "b" ≤ 1) :=
  extract_failed_tests_union_spec "test b ... FAILED" "b"

/-! ## Claim C7 — RESULT-block parsing -/

/-- C7: with no `## RESULT` block, `_parse_result_block` returns the default
result with status SUCCESS (empty `files_modified`, `tests_added = 0`, no
errors); with a block containing a STATUS word, the lowercased word `success`
maps to SUCCESS and anything else to FAILED. -/
theorem parse_result_block_status_spec (text : String) :
    (findResultBlock text.data = none →
      _parse_result_block text = { status := .success }) ∧
    (∀ block w, findResultBlock text.data = some block →
      searchLitWsRun "STATUS:" isWordChar block.data = some w →
      (_parse_result_block text).status =
        (if strLower w = "success" then .success else .failed)) := by
  constructor
  · intro h
    simp [_parse_result_block, h]
  · intro block w h1 h2
    simp only [_parse_result_block, h1, h2]
    cases searchLitDotPlus "FILES_MODIFIED:" block.data <;>
      cases searchLitWsRun "TESTS_ADDED:" Char.isDigit block.data <;>
        cases searchLitDotPlus "ERRORS:" block.data <;>
          simp <;> split <;> rfl

/-- C7 witness: a concrete text with a RESULT block whose STATUS word is
`Error`, parsed as FAILED, and a concrete text without a block. -/
theorem parse_result_block_status_spec_witness :
    _parse_result_block "no block here" = { status := .success } ∧
    (_parse_result_block "## RESULT\nSTATUS: Error\n").status =
      (if strLower "Error" = "success" then AgentStatus.success else .failed) :=
  ⟨(parse_result_block_status_spec "no block here").1 (by decide),
   (parse_result_block_status_spec "## RESULT\nSTATUS: Error\n").2
     "STATUS: Error\n" "Error" (by decide) (by decide)⟩

/-! ## Claim C3 — regression line in the retry context -/

/-- Every list starts with itself. -/
theorem startsWithSeq_refl (l : List Char) : startsWithSeq l l = true := by
  induction l with
  | nil => rfl
  | cons c t ih => simp [startsWithSeq, ih]

/-- Unfolding `containsSeq` at a cons cell. -/
theorem containsSeq_cons (x : Char) (t c : List Char) :
    containsSeq (x :: t) c = (startsWithSeq (x :: t) c || containsSeq t c) := by
  conv_lhs => rw [containsSeq]

/-- A contained sequence stays contained under prepending. -/
theorem containsSeq_append (a : List Char) :
    ∀ b c : List Char, containsSeq b c = true → containsSeq (a ++ b) c = true := by
  induction a with
  | nil => intro b c h; simpa using h
  | cons x xs ih =>
    intro b c h
    rw [List.cons_append, containsSeq_cons, ih b c h]
    simp

/-- Every list contains itself. -/
theorem containsSeq_self (b : List Char) : containsSeq b b = true := by
  cases b with
  | nil => rw [containsSeq]; rfl
  | cons c t =>
    rw [containsSeq_cons]
    simp [startsWithSeq_refl]

/-- A string contains anything its character list ends with. -/
theorem strContains_of_data_suffix (big small : String)
    (h : ∃ pre, big.data = pre ++ small.data) : strContains big small = true := by
  obtain ⟨pre, hp⟩ := h
  rw [strContains, hp]
  exact containsSeq_append pre small.data small.data (containsSeq_self small.data)

/-- The REGRESSION line appended by `_execute_agent` is contained in the
resulting error context. -/
theorem strContains_regression (x n : String) :
    strContains (x ++ "\nREGRESSION: " ++ n ++ " tests broke")
      ("REGRESSION: " ++ n ++ " tests broke") = true := by
  apply strContains_of_data_suffix
  refine ⟨x.data ++ ['\n'], ?_⟩
  have h1 : ("\nREGRESSION: " : String) = "\n" ++ "REGRESSION: " := rfl
  rw [h1]
  simp [String.data_append, List.append_assoc]

/-- The first context the retry loop passes on is the incoming one. -/
theorem attempt_loop_ctx_head (baseline : TestBaseline) (tid : String)
    (acfg : AgentConfig) (atask : AgentTask) (wt : String)
    (oracle : Nat → AttemptOutcome) (mr a : Nat) (st : OrchState) (ec : String)
    (fuel : Nat) :
    (agent_attempt_loop baseline tid acfg atask wt oracle mr a st ec (fuel + 1)).1.head? =
      some ec := by
  simp only [agent_attempt_loop]
  split <;> rfl

/-- C3 (amended): whenever an attempt's FAST gate shows
`newly_failing = N > 0` against the baseline and a next attempt runs, the
error context passed into that next attempt contains the line
`REGRESSION: N tests broke` — without the `vs baseline` suffix the claim
expects (`format_compact` would add that suffix only for
`TestResult.regressions > 0`, a field `run_test_level` never sets). -/
theorem retry_context_contains_regression (baseline : TestBaseline) (tid : String)
    (acfg : AgentConfig) (atask : AgentTask) (wt : String)
    (oracle : Nat → AttemptOutcome) (mr : Nat) :
    ∀ (fuel a k : Nat) (st : OrchState) (ec ctx : String),
      (agent_attempt_loop baseline tid acfg atask wt oracle mr a st ec fuel).1.get?
          (k + 1) = some ctx →
      0 < (compare_to_baseline baseline (gateResultOf oracle (a + k))).newly_failing →
      strContains ctx ("REGRESSION: " ++
        toString (compare_to_baseline baseline (gateResultOf oracle (a + k))).newly_failing ++
        " tests broke") = true := by
  intro fuel
  induction fuel with
  | zero =>
    intro a k st ec ctx hget _
    simp [agent_attempt_loop] at hget
  | succ fuel ih =>
    intro a k st ec ctx hget hpos
    simp only [agent_attempt_loop] at hget
    split at hget
    · simp at hget
    · simp only [List.get?_cons_succ] at hget
      cases k with
      | zero =>
        cases fuel with
        | zero =>
          simp [agent_attempt_loop] at hget
        | succ fuel2 =>
          rw [List.get?_zero, attempt_loop_ctx_head] at hget
          injection hget with hctx
          subst hctx
          rw [if_pos (by simpa [gateResultOf] using hpos)]
          simpa [gateResultOf] using
            strContains_regression _ _
      | succ k2 =>
        have := ih (a + 1) k2 _ _ _ hget
        simpa [Nat.add_assoc, Nat.add_comm 1 k2] using
          this (by simpa [Nat.add_assoc, Nat.add_comm 1 k2] using hpos)

/-- C3 counterexample: a failing attempt with two regressed tests puts
`REGRESSION: 2 tests broke` — not `REGRESSION: 2 tests broke vs baseline` —
into the context passed to the next attempt. -/
theorem retry_context_counterexample :
    (agent_attempt_loop baselineTenPassing "t" { role := "rust-backend", prompt_file := "p" }
        backendTask "wt" regressionOracle 2 1 stateZero "" 2).1.get? 1 =
      some "ERROR: tests failed (test result: FAILED. 8 passed; 2 failed; 0 ignored)\nREGRESSION: 2 tests broke" ∧
    (compare_to_baseline baselineTenPassing (gateResultOf regressionOracle 1)).newly_failing = 2 ∧
    strContains
      "ERROR: tests failed (test result: FAILED. 8 passed; 2 failed; 0 ignored)\nREGRESSION: 2 tests broke"
      "REGRESSION: 2 tests broke vs baseline" = false ∧
    strContains
      "ERROR: tests failed (test result: FAILED. 8 passed; 2 failed; 0 ignored)\nREGRESSION: 2 tests broke"
      "REGRESSION: 2 tests broke" = true := by
  exact ⟨by decide, by decide, by decide, by decide⟩

/-- C3 witness for the amended theorem at the concrete scenario. -/
theorem retry_context_contains_regression_witness :
    strContains
      "ERROR: tests failed (test result: FAILED. 8 passed; 2 failed; 0 ignored)\nREGRESSION: 2 tests broke"
      ("REGRESSION: " ++
        toString (compare_to_baseline baselineTenPassing
          (gateResultOf regressionOracle (1 + 0))).newly_failing ++
        " tests broke") = true :=
  retry_context_contains_regression baselineTenPassing "t"
    { role := "rust-backend", prompt_file := "p" } backendTask "wt" regressionOracle 2
    2 1 0 stateZero ""
    "ERROR: tests failed (test result: FAILED. 8 passed; 2 failed; 0 ignored)\nREGRESSION: 2 tests broke"
    (by decide) (by decide)

/-! ## Claim C4 — thresholds fire once, at the first crossing -/


/-- Unfolding of `runRecords` at a cons cell. -/
theorem runRecords_cons (c : CostTracker) (r : RecordCall) (rs : List RecordCall) :
    runRecords c (r :: rs) =
      ((runRecords (recordStep c r).1 rs).1,
        (recordStep c r).2 :: (runRecords (recordStep c r).1 rs).2) := rfl

/-- A threshold is fired by `fireList` iff it is listed, crossed, and new. -/
theorem fireList_mem_events (pct : ℚ) :
    ∀ (ts fired : List Nat) (t : Nat),
      t ∈ (fireList pct fired ts).2 ↔ t ∈ ts ∧ (t : ℚ) ≤ pct ∧ t ∉ fired := by
  intro ts
  induction ts with
  | nil => simp [fireList]
  | cons u rest ih =>
    intro fired t
    by_cases hc : (u : ℚ) ≤ pct ∧ u ∉ fired
    · simp only [fireList, if_pos hc, List.mem_cons, ih]
      constructor
      · rintro (rfl | ⟨h1, h2, h3⟩)
        · exact ⟨Or.inl rfl, hc.1, hc.2⟩
        · exact ⟨Or.inr h1, h2, fun hf => h3 (Or.inr hf)⟩
      · rintro ⟨h1 | h1, h2, h3⟩
        · exact Or.inl h1
        · by_cases ht : t = u
          · exact Or.inl ht
          · refine Or.inr ⟨h1, h2, fun hf => ?_⟩
            rcases hf with hf | hf
            · exact ht hf
            · exact h3 hf
    · simp only [fireList, if_neg hc, List.mem_cons, ih]
      constructor
      · rintro ⟨h1, h2, h3⟩
        exact ⟨Or.inr h1, h2, h3⟩
      · rintro ⟨h1 | h1, h2, h3⟩
        · subst h1
          exact absurd ⟨h2, h3⟩ hc
        · exact ⟨h1, h2, h3⟩

/-- Membership in the updated fired set of `fireList`. -/
theorem fireList_mem_fired (pct : ℚ) :
    ∀ (ts fired : List Nat) (t : Nat),
      t ∈ (fireList pct fired ts).1 ↔ t ∈ fired ∨ (t ∈ ts ∧ (t : ℚ) ≤ pct) := by
  intro ts
  induction ts with
  | nil => simp [fireList]
  | cons u rest ih =>
    intro fired t
    by_cases hc : (u : ℚ) ≤ pct ∧ u ∉ fired
    · simp only [fireList, if_pos hc, ih, List.mem_cons]
      constructor
      · rintro ((rfl | h1) | ⟨h1, h2⟩)
        · exact Or.inr ⟨Or.inl rfl, hc.1⟩
        · exact Or.inl h1
        · exact Or.inr ⟨Or.inr h1, h2⟩
      · rintro (h1 | ⟨h1 | h1, h2⟩)
        · exact Or.inl (Or.inr h1)
        · subst h1
          exact Or.inl (Or.inl rfl)
        · exact Or.inr ⟨h1, h2⟩
    · simp only [fireList, if_neg hc, ih, List.mem_cons]
      constructor
      · rintro (h1 | ⟨h1, h2⟩)
        · exact Or.inl h1
        · exact Or.inr ⟨Or.inr h1, h2⟩
      · rintro (h1 | ⟨h1 | h1, h2⟩)
        · exact Or.inl h1
        · subst h1
          rcases not_and_or.mp hc with h | h
        
          · exact absurd h2 h
          · exact Or.inl (not_not.mp h)
        · exact Or.inr ⟨h1, h2⟩

/-- The events and fired set of one `record` call, via `fireList` at the
post-append budget percentage. -/
theorem recordStep_fired_events (c : CostTracker) (r : RecordCall) :
    (recordStep c r).2 =
      (fireList (recordStep c r).1.budget_percent c.thresholds_fired BUDGET_THRESHOLDS).2 ∧
    (recordStep c r).1.thresholds_fired =
      (fireList (recordStep c r).1.budget_percent c.thresholds_fired BUDGET_THRESHOLDS).1 := by
  rw [recordStep, recordOk_eq]
  exact ⟨rfl, rfl⟩

/-- Budget percentage after the first call of a sequence. -/
theorem pctAt_cons_zero (c : CostTracker) (r : RecordCall) (rs : List RecordCall) :
    pctAt c (r :: rs) 0 = (recordStep c r).1.budget_percent := rfl

/-- Budget percentage after a later call of a sequence. -/
theorem pctAt_cons_succ (c : CostTracker) (r : RecordCall) (rs : List RecordCall) (j : Nat) :
    pctAt c (r :: rs) (j + 1) = pctAt (recordStep c r).1 rs j := rfl

/-- Splitting a bounded existential at index zero. -/
theorem exists_lt_succ_split (n : Nat) (P : Nat → Prop) :
    (∃ i, i < n + 1 ∧ P i) ↔ P 0 ∨ ∃ j, j < n ∧ P (j + 1) := by
  constructor
  · rintro ⟨i, hi, hp⟩
    cases i with
    | zero => exact Or.inl hp
    | succ j => exact Or.inr ⟨j, by omega, hp⟩
  · rintro (h | ⟨j, hj, hp⟩)
    · exact ⟨0, by omega, h⟩
    · exact ⟨j + 1, by omega, hp⟩

/-- A threshold is in the fired set after a sequence of `record` calls iff it
was already fired or some call crossed it. -/
theorem runRecords_fired_iff :
    ∀ (calls : List RecordCall) (c : CostTracker) (t : Nat), t ∈ BUDGET_THRESHOLDS →
      (t ∈ (runRecords c calls).1.thresholds_fired ↔
        t ∈ c.thresholds_fired ∨ ∃ i, i < calls.length ∧ (t : ℚ) ≤ pctAt c calls i) := by
  intro calls
  induction calls with
  | nil =>
    intro c t _
    simp [runRecords]
  | cons r rs ih =>
    intro c t ht
    rw [runRecords_cons]
    simp only
    rw [ih (recordStep c r).1 t ht]
    rw [(recordStep_fired_events c r).2, fireList_mem_fired]
    simp only [List.length_cons]
    rw [exists_lt_succ_split rs.length (fun i => (t : ℚ) ≤ pctAt c (r :: rs) i)]
    rw [pctAt_cons_zero]
    constructor
    · rintro ((h | ⟨_, h2⟩) | ⟨j, hj, hp⟩)
      · exact Or.inl h
      · exact Or.inr (Or.inl h2)
      · exact Or.inr (Or.inr ⟨j, hj, by rw [pctAt_cons_succ]; exact hp⟩)
    · rintro (h | (h | ⟨j, hj, hp⟩))
      · exact Or.inl (Or.inl h)
      · exact Or.inl (Or.inr ⟨ht, h⟩)
      · exact Or.inr ⟨j, hj, by rw [pctAt_cons_succ] at hp; exact hp⟩

/-- The callback fires for `t` at call `i` iff call `i` crosses `t` and `t`
was not already in the fired set. -/
theorem runRecords_events_iff :
    ∀ (calls : List RecordCall) (c : CostTracker) (i t : Nat), t ∈ BUDGET_THRESHOLDS →
      i < calls.length →
      (t ∈ ((runRecords c calls).2.getD i []) ↔
        ((t : ℚ) ≤ pctAt c calls i ∧
          t ∉ (runRecords c (calls.take i)).1.thresholds_fired)) := by
  intro calls
  induction calls with
  | nil => intro c i t _ hi; simp at hi
  | cons r rs ih =>
    intro c i t ht hi
    rw [runRecords_cons]
    cases i with
    | zero =>
      simp only [List.getD_cons_zero, List.take_zero]
      rw [(recordStep_fired_events c r).1, fireList_mem_events, pctAt_cons_zero]
      simp only [runRecords]
      constructor
      · rintro ⟨_, h2, h3⟩
        exact ⟨h2, h3⟩
      · rintro ⟨h2, h3⟩
        exact ⟨ht, h2, h3⟩
    | succ j =>
      simp only [List.getD_cons_succ, List.take_succ_cons]
      rw [ih (recordStep c r).1 j t ht (by simpa using hi), pctAt_cons_succ]
      rw [runRecords_cons]

/-- A threshold already in the fired set is never fired again. -/
theorem runRecords_no_refire :
    ∀ (calls : List RecordCall) (c : CostTracker) (t : Nat),
      t ∈ c.thresholds_fired → ∀ ev ∈ (runRecords c calls).2, t ∉ ev := by
  intro calls
  induction calls with
  | nil => intro c t _ ev hev; simp [runRecords] at hev
  | cons r rs ih =>
    intro c t htf ev hev
    rw [runRecords_cons] at hev
    simp only [List.mem_cons] at hev
    rcases hev with hev | hev
    · subst hev
      rw [(recordStep_fired_events c r).1, fireList_mem_events]
      rintro ⟨_, _, h3⟩
      exact h3 htf
    · refine ih (recordStep c r).1 t ?_ ev hev
      rw [(recordStep_fired_events c r).2, fireList_mem_fired]
      exact Or.inl htf

/-- Over any sequence of `record` calls, each threshold fires at most once. -/
theorem runRecords_countP_le_one :
    ∀ (calls : List RecordCall) (c : CostTracker) (t : Nat),
      ((runRecords c calls).2.countP fun ev => decide (t ∈ ev)) ≤ 1 := by
  intro calls
  induction calls with
  | nil => intro c t; simp [runRecords]
  | cons r rs ih =>
    intro c t
    rw [runRecords_cons]
    simp only [List.countP_cons]
    by_cases h : t ∈ (recordStep c r).2
    · have hf : t ∈ (recordStep c r).1.thresholds_fired := by
        rw [(recordStep_fired_events c r).2, fireList_mem_fired]
        rw [(recordStep_fired_events c r).1, fireList_mem_events] at h
        exact Or.inr ⟨h.1, h.2.1⟩
      have hz : ((runRecords (recordStep c r).1 rs).2.countP fun ev => decide (t ∈ ev)) = 0 := by
        rw [List.countP_eq_zero]
        intro ev hev
        simpa using runRecords_no_refire rs (recordStep c r).1 t hf ev hev
      simp [h, hz]
    · simp only [h, decide_False, if_neg]
      simpa using ih (recordStep c r).1 t

/-- Budget percentages are stable under truncating the call list. -/
theorem pctAt_take (c : CostTracker) (calls : List RecordCall) (i j : Nat) (h : j < i) :
    pctAt c (calls.take i) j = pctAt c calls j := by
  have : min (j + 1) i = j + 1 := Nat.min_eq_left (by omega)
  simp [pctAt, trackerAfter, List.take_take, this]

/-- C4: for every threshold `T ∈ {50, 80, 100}` and any sequence of `record`
calls on a freshly constructed tracker, the callback is invoked for `T` at
most once, and it is invoked at call `i` exactly when `budget_percent ≥ T`
holds after call `i` and after no earlier call. -/
theorem threshold_fires_once_at_first_crossing (tid : String) (bud : ℚ)
    (calls : List RecordCall) (T i : Nat) (hT : T ∈ BUDGET_THRESHOLDS)
    (hi : i < calls.length) :
    ((eventsOf (CostTracker.init tid bud) calls).countP fun ev => decide (T ∈ ev)) ≤ 1 ∧
    (T ∈ ((eventsOf (CostTracker.init tid bud) calls).getD i []) ↔
      ((T : ℚ) ≤ pctAt (CostTracker.init tid bud) calls i ∧
        ∀ j, j < i → pctAt (CostTracker.init tid bud) calls j < (T : ℚ))) := by
  constructor
  · exact runRecords_countP_le_one calls _ T
  · rw [eventsOf, runRecords_events_iff calls _ i T hT hi]
    have hfired := runRecords_fired_iff (calls.take i) (CostTracker.init tid bud) T hT
    constructor
    · rintro ⟨h1, h2⟩
      refine ⟨h1, fun j hj => ?_⟩
      by_contra hle
      push_neg at hle
      apply h2
      rw [hfired]
      refine Or.inr ⟨j, ?_, ?_⟩
      · rw [List.length_take]
        omega
      · rw [pctAt_take _ calls i j hj]
        exact hle
    · rintro ⟨h1, h2⟩
      refine ⟨h1, fun hmem => ?_⟩
      rw [hfired] at hmem
      rcases hmem with h | ⟨j, hj, hp⟩
      · simp [CostTracker.init] at h
      · rw [List.length_take] at hj
        have hj2 : j < i := by omega
        rw [pctAt_take _ _ _ _ hj2] at hp
        exact absurd hp (not_le.mpr (h2 j hj2))

/-- C4 witness: budget $1, one opus call costing $1.50 (150%), threshold 50. -/
theorem threshold_fires_once_witness :
    ((eventsOf (CostTracker.init "t" 1) [⟨"r", "opus", 100000, 0, 0⟩]).countP
      fun ev => decide (50 ∈ ev)) ≤ 1 ∧
    (50 ∈ ((eventsOf (CostTracker.init "t" 1) [⟨"r", "opus", 100000, 0, 0⟩]).getD 0 []) ↔
      ((50 : ℚ) ≤ pctAt (CostTracker.init "t" 1) [⟨"r", "opus", 100000, 0, 0⟩] 0 ∧
        ∀ j, j < 0 → pctAt (CostTracker.init "t" 1) [⟨"r", "opus", 100000, 0, 0⟩] j < (50 : ℚ))) :=
  threshold_fires_once_at_first_crossing "t" 1 [⟨"r", "opus", 100000, 0, 0⟩] 50 0
    (by decide) (by decide)

/-! ## Claim C1 — persisted task total vs agent-run costs -/

/-- Task-row updates do not touch the `agent_runs` table. -/
theorem updateTaskRow_runs (db : DB) (tid : String) (f : TaskRow → TaskRow) :
    (updateTaskRow db tid f).agent_runs = db.agent_runs ∧
    (updateTaskRow db tid f).next_run_id = db.next_run_id := ⟨rfl, rfl⟩

/-- Task-row updates keep the token-derived cost sum. -/
theorem runTokenCostSum_updateTaskRow (db : DB) (tid tid2 : String) (f : TaskRow → TaskRow) :
    runTokenCostSum (updateTaskRow db tid2 f) tid = runTokenCostSum db tid := rfl

/-- Task-row updates keep store well-formedness. -/
theorem wf_updateTaskRow (db : DB) (tid : String) (f : TaskRow → TaskRow) (h : DB.wf db) :
    DB.wf (updateTaskRow db tid f) := h

/-- Regression-log writes keep the token-derived cost sum. -/
theorem runTokenCostSum_log_regression (db : DB) (tid tid2 role : String)
    (a b c d : Int) :
    runTokenCostSum (db_log_regression db tid2 role a b c d) tid = runTokenCostSum db tid := rfl

/-- Regression-log writes keep store well-formedness. -/
theorem wf_log_regression (db : DB) (tid role : String) (a b c d : Int) (h : DB.wf db) :
    DB.wf (db_log_regression db tid role a b c d) := h

/-- Creating a task keeps the token-derived cost sum. -/
theorem runTokenCostSum_create_task (db : DB) (tid tid2 pp d : String) :
    runTokenCostSum (db_create_task db tid2 pp d) tid = runTokenCostSum db tid := rfl

/-- Creating a task keeps store well-formedness. -/
theorem wf_create_task (db : DB) (tid pp d : String) (h : DB.wf db) :
    DB.wf (db_create_task db tid pp d) := h

/-- One `record` call adds exactly the token-derived cost to the total. -/
theorem recordOk_total_cost (c : CostTracker) (role model : String) (inp out : Int) (dur : ℚ) :
    (c.recordOk role model inp out dur).1.total_cost =
      c.total_cost + calculate_cost model inp out := by
  rw [recordOk_eq]
  simp [CostTracker.total_cost]

/-- One `AgentRunner.run` appends exactly one `agent_runs` row for the task,
whose model and token counts yield the same token-derived cost as the returned
result, and keeps the store well-formed. -/
theorem runner_run_effect (db : DB) (cfg : AgentConfig) (tid cwd : String)
    (eo : Except String AgentResult) (dur : ℚ) (hwf : DB.wf db) :
    ∃ row : AgentRunRow,
      (runner_run db cfg tid cwd eo dur).1.agent_runs = db.agent_runs ++ [row] ∧
      (runner_run db cfg tid cwd eo dur).1.next_run_id = db.next_run_id + 1 ∧
      (runner_run db cfg tid cwd eo dur).1.tasks = db.tasks ∧
      row.task_id = tid ∧ row.id = db.next_run_id ∧
      calculate_cost row.model row.input_tokens row.output_tokens =
        calculate_cost cfg.model (runner_run db cfg tid cwd eo dur).2.input_tokens
          (runner_run db cfg tid cwd eo dur).2.output_tokens ∧
      DB.wf (runner_run db cfg tid cwd eo dur).1 := by
  have hmap : ∀ (g : AgentRunRow → AgentRunRow) (l : List AgentRunRow),
      (∀ r ∈ l, r.id < db.next_run_id) →
      l.map (fun r => if r.id = db.next_run_id then g r else r) = l := by
    intro g l hl
    induction l with
    | nil => rfl
    | cons r rest ih =>
      have hr : r.id ≠ db.next_run_id := Nat.ne_of_lt (hl r (by simp))
      simp only [List.map_cons, if_neg hr]
      rw [ih fun x hx => hl x (by simp [hx])]
  cases eo with
  | ok result0 =>
    refine ⟨{ id := db.next_run_id, task_id := tid, role := cfg.role,
              status := result0.status.value, model := cfg.model,
              branch_name := "", worktree_path := cwd,
              output := strTake result0.raw_output 10000,
              cost_usd := result0.cost_usd,
              input_tokens := result0.input_tokens,
              output_tokens := result0.output_tokens,
              duration_seconds := dur,
              files_modified := strJoin "," result0.files_modified,
              error := "" }, ?_, rfl, rfl, rfl, rfl, rfl, ?_⟩
    · simp only [runner_run, db_create_agent_run, updateAgentRunRow, List.map_append,
        List.map_cons, List.map_nil, if_pos rfl]
      rw [hmap _ db.agent_runs hwf]
      simp
    · intro r hr
      simp only [runner_run, db_create_agent_run, updateAgentRunRow, List.map_append,
        List.map_cons, List.map_nil, if_pos rfl] at hr
      rw [hmap _ db.agent_runs hwf] at hr
      simp only [List.mem_append, List.mem_singleton] at hr
      rcases hr with hr | hr
      · have := hwf r hr
        simp only [runner_run, db_create_agent_run, updateAgentRunRow]
        omega
      · subst hr
        simp [runner_run, db_create_agent_run, updateAgentRunRow]
  | error e =>
    refine ⟨{ id := db.next_run_id, task_id := tid, role := cfg.role,
              status := "failed", model := cfg.model,
              branch_name := "", worktree_path := cwd,
              duration_seconds := dur,
              error := strTake e 500 }, ?_, rfl, rfl, rfl, rfl, rfl, ?_⟩
    · simp only [runner_run, db_create_agent_run, updateAgentRunRow, List.map_append,
        List.map_cons, List.map_nil, if_pos rfl]
      rw [hmap _ db.agent_runs hwf]
      simp
    · intro r hr
      simp only [runner_run, db_create_agent_run, updateAgentRunRow, List.map_append,
        List.map_cons, List.map_nil, if_pos rfl] at hr
      rw [hmap _ db.agent_runs hwf] at hr
      simp only [List.mem_append, List.mem_singleton] at hr
      rcases hr with hr | hr
      · have := hwf r hr
        simp only [runner_run, db_create_agent_run, updateAgentRunRow]
        omega
      · subst hr
        simp [runner_run, db_create_agent_run, updateAgentRunRow]


/-- The runner-then-record step of the orchestrator preserves the
cost-accounting invariant. -/
theorem step_runner_record (db : DB) (cfg : AgentConfig) (tid cwd role : String)
    (eo : Except String AgentResult) (dur dur2 : ℚ) (ct : CostTracker)
    (hwf : DB.wf db) (hc : ct.total_cost = runTokenCostSum db tid) :
    DB.wf (runner_run db cfg tid cwd eo dur).1 ∧
    (ct.recordOk role cfg.model (runner_run db cfg tid cwd eo dur).2.input_tokens
      (runner_run db cfg tid cwd eo dur).2.output_tokens dur2).1.total_cost =
      runTokenCostSum (runner_run db cfg tid cwd eo dur).1 tid := by
  obtain ⟨row, h1, _, _, h4, _, h6, h7⟩ := runner_run_effect db cfg tid cwd eo dur hwf
  refine ⟨h7, ?_⟩
  have hrow : (List.filter (fun r => decide (r.task_id = tid)) [row]) = [row] := by
    simp [h4]
  rw [recordOk_total_cost, hc]
  rw [runTokenCostSum, runTokenCostSum, agentRunsOf, agentRunsOf, h1,
    List.filter_append, hrow]
  simp only [List.map_append, List.sum_append, List.map_cons, List.map_nil,
    List.sum_cons, List.sum_nil, h6, add_zero]

/-- The retry loop of `_execute_agent` preserves the cost invariant. -/
theorem attempt_loop_inv (baseline : TestBaseline) (tid : String)
    (acfg : AgentConfig) (atask : AgentTask) (wt : String)
    (oracle : Nat → AttemptOutcome) (mr : Nat) :
    ∀ (fuel attempt : Nat) (st : OrchState) (ec : String),
      CostInv tid st →
      CostInv tid
        (agent_attempt_loop baseline tid acfg atask wt oracle mr attempt st ec fuel).2.1 := by
  intro fuel
  induction fuel with
  | zero => intro attempt st ec h; exact h
  | succ fuel ih =>
    intro attempt st ec h
    have hstep := step_runner_record st.db acfg tid wt atask.role (oracle attempt).exec
      (oracle attempt).exec_duration
      (runner_run st.db acfg tid wt (oracle attempt).exec (oracle attempt).exec_duration).2.duration_seconds
      st.cost_tracker h.1 h.2
    simp only [agent_attempt_loop]
    split
    · exact ⟨hstep.1, hstep.2⟩
    · refine ih (attempt + 1) _ _ ⟨hstep.1, ?_⟩
      rw [runTokenCostSum_log_regression]
      exact hstep.2

/-- `_execute_agent` preserves the cost invariant. -/
theorem execute_agent_inv (cfg : OrchConfig) (baseline : TestBaseline)
    (tid pp : String) (oracle : Nat → AttemptOutcome) (st : OrchState)
    (task : AgentTask) (h : CostInv tid st) :
    CostInv tid (execute_agent cfg baseline tid pp oracle st task).2.1 := by
  simp only [execute_agent]
  split
  · exact h
  · rename_i acfg heq
    have hloop := attempt_loop_inv baseline tid acfg task
      (pp ++ "/.cotg-worktrees/" ++ tid ++ "/" ++ task.role) oracle
      cfg.build_max_retries cfg.build_max_retries 1
      { st with
        dashboard_entries := setEntry st.dashboard_entries task.role
          { role := task.role, status := "running" },
        worktrees := setAssoc st.worktrees task.role
          (pp ++ "/.cotg-worktrees/" ++ tid ++ "/" ++ task.role) } "" h
    split
    · exact hloop
    · exact hloop

/-- The agent loop of `execute` preserves the cost invariant. -/
theorem run_agents_inv (cfg : OrchConfig) (baseline : TestBaseline)
    (tid pp : String) (attempts : Nat → Nat → AttemptOutcome) :
    ∀ (tasks : List AgentTask) (st : OrchState) (idx : Nat), CostInv tid st →
      CostInv tid (run_agents cfg baseline tid pp attempts st tasks idx).1 := by
  intro tasks
  induction tasks with
  | nil => intro st idx h; exact h
  | cons t rest ih =>
    intro st idx h
    simp only [run_agents]
    split
    · exact h
    · split
      · exact execute_agent_inv cfg baseline tid pp (attempts idx) st t h
      · exact ih _ (idx + 1) (execute_agent_inv cfg baseline tid pp (attempts idx) st t h)

/-- `_set_status` preserves the cost invariant. -/
theorem set_status_inv (st : OrchState) (tid tid2 s : String) (h : CostInv tid st) :
    CostInv tid (set_status st tid2 s) := ⟨h.1, h.2⟩

/-- `_run_planner` preserves the cost invariant. -/
theorem run_planner_inv (st : OrchState) (tid pp desc : String)
    (eo : Except String AgentResult) (dur : ℚ) (agents : List AgentTask)
    (h : CostInv tid st) :
    CostInv tid (run_planner st tid pp desc eo dur agents).1 := by
  have hstep := step_runner_record st.db plannerConfig tid pp "planner" eo dur
    (runner_run st.db plannerConfig tid pp eo dur).2.duration_seconds st.cost_tracker h.1 h.2
  exact ⟨hstep.1, hstep.2⟩

/-- Looking up a task row after an id-preserving update. -/
theorem taskRowOf_update (db : DB) (tid : String) (f : TaskRow → TaskRow)
    (hf : ∀ r, (f r).id = r.id) :
    taskRowOf (updateTaskRow db tid f) tid = (taskRowOf db tid).map f := by
  simp only [taskRowOf, updateTaskRow]
  induction db.tasks with
  | nil => rfl
  | cons r rest ih =>
    simp only [List.map_cons]
    by_cases h : r.id = tid
    · rw [if_pos h]
      rw [List.find?_cons_of_pos _ (by simp [hf r, h]),
        List.find?_cons_of_pos _ (by simp [h])]
      rfl
    · rw [if_neg h]
      rw [List.find?_cons_of_neg _ (by simp [h]),
        List.find?_cons_of_neg _ (by simp [h])]
      exact ih

/-- The error branch of `execute` never leaves the task row at `done`. -/
theorem finishError_not_done (st : OrchState) (tid e : String) :
    (taskRowOf (finishError st tid e).db tid).map (fun r => r.status) ≠ some "done" := by
  simp only [finishError, set_status]
  rw [taskRowOf_update, taskRowOf_update]
  · cases taskRowOf st.db tid <;> simp
  · intro r; rfl
  · intro r; rfl

/-- The DONE update pins the persisted `total_cost_usd` to the written
value. -/
theorem done_update_total (db : DB) (tid : String) (V : ℚ) (W : Int)
    (hdone : (taskRowOf (updateTaskRow db tid fun r =>
        { r with status := "done", total_cost_usd := V, total_tokens := W }) tid).map
      (fun r => r.status) = some "done") :
    (taskRowOf (updateTaskRow db tid fun r =>
        { r with status := "done", total_cost_usd := V, total_tokens := W }) tid).map
      (fun r => r.total_cost_usd) = some V := by
  rw [taskRowOf_update] at hdone ⊢
  · cases hrow : taskRowOf db tid with
    | none => rw [hrow] at hdone; simp at hdone
    | some r => simp
  all_goals intro r; rfl

/-- After the agent loop, the merge/test/done tail of `execute` writes the
tracker total into `total_cost_usd` whenever the task ends at `done`; under
the cost invariant that value is the token-derived cost sum of the task's
rows. -/
theorem tail_analysis (cfg : OrchConfig) (tid : String) (o : PipelineOracle)
    (st4 : OrchState) (err : Option String) (hinv : CostInv tid st4)
    (hdone :
      (taskRowOf ({ (match err with
          | some e => finishError st4 tid e
          | none =>
            let st5 := set_status st4 tid "merging"
            if o.merge_conflicts ≠ [] then
              finishError st5 tid ("Merge conflicts: " ++ strJoin "; " o.merge_conflicts)
            else
              let st6 := { st5 with db := updateTaskRow st5.db tid fun r =>
                  { r with integration_branch := "cotg/integration/" ++ tid } }
              let st7 := set_status st6 tid "testing"
              let level2 := run_test_level_tests .normal o.level2 o.level2_duration
              if level2.passed then
                let st8 := set_status st7 tid "done"
                { st8 with db := updateTaskRow st8.db tid fun r =>
                    { r with
                      status := "done"
                      total_cost_usd := st8.cost_tracker.total_cost
                      total_tokens := st8.cost_tracker.total_tokens } }
              else
                finishError st7 tid
                  ("Level 2 tests failed after merge: " ++ format_compact level2)) with
        worktrees := ([] : List (String × String)) } : OrchState).db tid).map
        (fun r => r.status) = some "done") :
    (taskRowOf ({ (match err with
        | some e => finishError st4 tid e
        | none =>
          let st5 := set_status st4 tid "merging"
          if o.merge_conflicts ≠ [] then
            finishError st5 tid ("Merge conflicts: " ++ strJoin "; " o.merge_conflicts)
          else
            let st6 := { st5 with db := updateTaskRow st5.db tid fun r =>
                { r with integration_branch := "cotg/integration/" ++ tid } }
            let st7 := set_status st6 tid "testing"
            let level2 := run_test_level_tests .normal o.level2 o.level2_duration
            if level2.passed then
              let st8 := set_status st7 tid "done"
              { st8 with db := updateTaskRow st8.db tid fun r =>
                  { r with
                    status := "done"
                    total_cost_usd := st8.cost_tracker.total_cost
                    total_tokens := st8.cost_tracker.total_tokens } }
            else
              finishError st7 tid
                ("Level 2 tests failed after merge: " ++ format_compact level2)) with
      worktrees := ([] : List (String × String)) } : OrchState).db tid).map
      (fun r => r.total_cost_usd) =
      some (runTokenCostSum ({ (match err with
        | some e => finishError st4 tid e
        | none =>
          let st5 := set_status st4 tid "merging"
          if o.merge_conflicts ≠ [] then
            finishError st5 tid ("Merge conflicts: " ++ strJoin "; " o.merge_conflicts)
          else
            let st6 := { st5 with db := updateTaskRow st5.db tid fun r =>
                { r with integration_branch := "cotg/integration/" ++ tid } }
            let st7 := set_status st6 tid "testing"
            let level2 := run_test_level_tests .normal o.level2 o.level2_duration
            if level2.passed then
              let st8 := set_status st7 tid "done"
              { st8 with db := updateTaskRow st8.db tid fun r =>
                  { r with
                    status := "done"
                    total_cost_usd := st8.cost_tracker.total_cost
                    total_tokens := st8.cost_tracker.total_tokens } }
            else
              finishError st7 tid
                ("Level 2 tests failed after merge: " ++ format_compact level2)) with
        worktrees := ([] : List (String × String)) } : OrchState).db tid) := by
  cases err with
  | some e => exact absurd hdone (finishError_not_done st4 tid e)
  | none =>
    simp only at hdone ⊢
    by_cases hm : o.merge_conflicts ≠ []
    · rw [if_pos hm] at hdone ⊢
      exact absurd hdone (finishError_not_done _ tid _)
    · rw [if_neg hm] at hdone ⊢
      by_cases hp : (run_test_level_tests .normal o.level2 o.level2_duration).passed = true
      · rw [if_pos hp] at hdone ⊢
        exact (done_update_total _ tid _ _ hdone).trans (congrArg some hinv.2)
      · rw [if_neg hp] at hdone ⊢
        exact absurd hdone (finishError_not_done _ tid _)

/-- C1 (amended): for every pipeline run whose task row ends with status
`done`, starting from a well-formed store with no `agent_runs` rows for the
task id, the persisted `tasks.total_cost_usd` equals the sum over the task's
`agent_runs` rows of `calculate_cost(model, input_tokens, output_tokens)` —
the token-derived cost — not the sum of the rows' persisted CLI-reported
`cost_usd`. -/
theorem done_task_total_cost_eq_token_sum (cfg : OrchConfig) (pp desc : String)
    (o : PipelineOracle) (db0 : DB) (hwf : DB.wf db0)
    (hfresh : agentRunsOf db0 o.task_id = [])
    (hdone : (taskRowOf (orchestrator_execute cfg pp desc o db0).db o.task_id).map
      (fun r => r.status) = some "done") :
    (taskRowOf (orchestrator_execute cfg pp desc o db0).db o.task_id).map
      (fun r => r.total_cost_usd) =
      some (runTokenCostSum (orchestrator_execute cfg pp desc o db0).db o.task_id) := by
  have hInv0 : CostInv o.task_id
      { db := db_create_task db0 o.task_id pp desc,
        cost_tracker := .init o.task_id cfg.build_budget_usd } := by
    refine ⟨hwf, ?_⟩
    show (CostTracker.init o.task_id cfg.build_budget_usd).total_cost =
      runTokenCostSum (db_create_task db0 o.task_id pp desc) o.task_id
    have h0 : agentRunsOf (db_create_task db0 o.task_id pp desc) o.task_id =
        agentRunsOf db0 o.task_id := rfl
    rw [runTokenCostSum, h0, hfresh]
    rfl
  have hInv3 : CostInv o.task_id (set_status
      (run_planner (set_status
        { db := db_create_task db0 o.task_id pp desc,
          cost_tracker := .init o.task_id cfg.build_budget_usd }
        o.task_id "planning") o.task_id pp desc o.planner_exec o.planner_duration
        o.plan_agents).1 o.task_id "executing") :=
    set_status_inv _ _ _ _ (run_planner_inv _ _ _ _ _ _ _ (set_status_inv _ _ _ _ hInv0))
  have hInv4 := run_agents_inv cfg o.baseline o.task_id pp o.attempts
    (run_planner (set_status
        { db := db_create_task db0 o.task_id pp desc,
          cost_tracker := .init o.task_id cfg.build_budget_usd }
        o.task_id "planning") o.task_id pp desc o.planner_exec o.planner_duration
        o.plan_agents).2
    _ 0 hInv3
  exact tail_analysis cfg o.task_id o _ _ hInv4 hdone

/-- C1 counterexample: a pipeline whose planner reports a CLI cost of $1 with
zero token counts reaches DONE with `tasks.total_cost_usd = 0`, while the sum
of the persisted `AgentRun.cost_usd` values is $1. -/
theorem task_total_cost_counterexample :
    (taskRowOf (orchestrator_execute ⟨3, 15⟩ "pp" "d" planOnlyOracle {}).db "t1").map
      (fun r => r.status) = some "done" ∧
    (taskRowOf (orchestrator_execute ⟨3, 15⟩ "pp" "d" planOnlyOracle {}).db "t1").map
      (fun r => r.total_cost_usd) = some 0 ∧
    runCostSum (orchestrator_execute ⟨3, 15⟩ "pp" "d" planOnlyOracle {}).db "t1" = 1 := by
  refine ⟨by decide, ?_, ?_⟩
  · norm_num [runCostSum, agentRunsOf, orchestrator_execute, planOnlyOracle, db_create_task,
      set_status, run_planner, runner_run, db_create_agent_run, updateAgentRunRow, updateTaskRow,
      run_agents, finishError, run_test_level_tests, plannerConfig, CostTracker.recordOk,
      taskRowOf, CostTracker.record, CostTracker.check_thresholds, checkLoop, CostTracker.init,
      CostTracker.total_cost, CostTracker.budget_percent, calculate_cost, MODEL_RATES,
      BUDGET_THRESHOLDS, okCallback]
  · norm_num [runCostSum, agentRunsOf, orchestrator_execute, planOnlyOracle, db_create_task,
      set_status, run_planner, runner_run, db_create_agent_run, updateAgentRunRow, updateTaskRow,
      run_agents, finishError, run_test_level_tests, plannerConfig, CostTracker.recordOk,
      taskRowOf]

/-- C1 witness for the amended theorem at the concrete pipeline run. -/
theorem done_task_total_cost_eq_token_sum_witness :
    (taskRowOf (orchestrator_execute ⟨3, 15⟩ "pp" "d" planOnlyOracle {}).db
      planOnlyOracle.task_id).map (fun r => r.total_cost_usd) =
      some (runTokenCostSum (orchestrator_execute ⟨3, 15⟩ "pp" "d" planOnlyOracle {}).db
        planOnlyOracle.task_id) :=
  done_task_total_cost_eq_token_sum ⟨3, 15⟩ "pp" "d" planOnlyOracle {}
    (by intro r hr; simp at hr) (by decide) (by decide)
